/-
Verification of the Rpg-Scriber pipeline against its natural-language
specification.

The development shallowly embeds the parts of the code base that the
claims concern:

* `core/event_bus.py`   — typed pub/sub fan-out with exception isolation;
* `core/resilience.py`  — the circuit breaker;
* `transcribers/openai_transcriber.py` — MD5-keyed transcription cache
  with retry;
* `listeners/discord_listener.py` — stereo-to-mono conversion and the
  per-speaker audio buffer;
* `core/database.py`    — the question store and its status transitions;
* `summarizers/claude_summarizer.py` — the incremental summary pass,
  question extraction, and session finalisation.

Python text is modelled over `List Char`; machine floats that only ever
hold exact configuration values and timestamps are modelled as `ℚ`;
fallible calls return `Except`.  Remote services (the STT and LLM
endpoints, the sqlite driver) are modelled as oracles supplied to the
embedded functions, which lets theorems quantify over their behaviour.
-/
import Mathlib

namespace RpgScribe

/-! ## Python text primitives

The summarizer and transcriber manipulate Python strings with `strip`,
`split`, `replace`, the regex `\[PREGUNTA:\s*(.+?)\]` and the regex
that collapses runs of three or more newlines.  These helpers embed
those operations over `List Char`
(ASCII whitespace; the repository feeds only ASCII markers through
them). -/

/-- Whitespace test matching the characters Python `str.strip` and the
regex class for whitespace remove for ASCII input. -/
def pyIsSpace (c : Char) : Bool :=
  c == ' ' || c == '\t' || c == '\n' || c == '\r' || c == '\x0b' || c == '\x0c'

/-- Python `str.strip`: drop whitespace from both ends. -/
def pyStrip (t : List Char) : List Char :=
  ((t.dropWhile pyIsSpace).reverse.dropWhile pyIsSpace).reverse

/-- Decide whether `pat` is a leading segment of `t`. -/
def startsWithL : List Char → List Char → Bool
  | [], _ => true
  | _ :: _, [] => false
  | p :: ps, c :: cs => p == c && startsWithL ps cs

/-- Python substring membership (`pat in t`). -/
def containsSub (pat : List Char) : List Char → Bool
  | [] => startsWithL pat []
  | c :: rest => startsWithL pat (c :: rest) || containsSub pat rest

theorem startsWithL_length {pat t : List Char} (h : startsWithL pat t = true) :
    pat.length ≤ t.length := by
  induction pat generalizing t with
  | nil => simp
  | cons p ps ih =>
    cases t with
    | nil => simp [startsWithL] at h
    | cons c cs =>
      simp only [startsWithL, Bool.and_eq_true] at h
      simpa using ih h.2

/-- Python `str.replace(old, new)` for a non-empty `old`: replace every
non-overlapping occurrence, scanning left to right. -/
def replaceGo (old new : List Char) (text : List Char) : List Char :=
  match text with
  | [] => []
  | c :: rest =>
    if h : old ≠ [] ∧ startsWithL old (c :: rest) = true then
      new ++ replaceGo old new (List.drop old.length (c :: rest))
    else
      c :: replaceGo old new rest
termination_by text.length
decreasing_by
  · have h1 : 0 < old.length := List.length_pos.mpr h.1
    have h2 : old.length ≤ (c :: rest).length := startsWithL_length h.2
    simp only [List.length_drop, List.length_cons] at *
    omega
  · simp

/-- Python `str.replace` (the repository only calls it with a non-empty
pattern; the empty pattern falls back to the identity). -/
def pyReplace (old new text : List Char) : List Char :=
  if old.isEmpty then text else replaceGo old new text

/-- Python `str.split(sep)` for a non-empty separator: accumulate the
current piece and cut at every occurrence of `sep`. -/
def splitGo (sep : List Char) (text : List Char) (acc : List Char) :
    List (List Char) :=
  match text with
  | [] => [acc.reverse]
  | c :: rest =>
    if h : sep ≠ [] ∧ startsWithL sep (c :: rest) = true then
      acc.reverse :: splitGo sep (List.drop sep.length (c :: rest)) []
    else
      splitGo sep rest (c :: acc)
termination_by text.length
decreasing_by
  · have h1 : 0 < sep.length := List.length_pos.mpr h.1
    have h2 : sep.length ≤ (c :: rest).length := startsWithL_length h.2
    simp only [List.length_drop, List.length_cons] at *
    omega
  · simp

/-- Python `str.split(sep)` with a non-empty separator. -/
def pySplitOn (sep text : List Char) : List (List Char) :=
  if sep.isEmpty then [text] else splitGo sep text []

theorem dropWhile_length_le (p : Char → Bool) (l : List Char) :
    (l.dropWhile p).length ≤ l.length := by
  induction l with
  | nil => simp
  | cons c cs ih =>
    by_cases h : p c
    · simp only [List.dropWhile, h]
      exact Nat.le_trans ih (Nat.le_succ _)
    · simp only [List.dropWhile, h]
      simp

/-- Embedding of the summarizer newline-collapsing `re.sub`: every
maximal run of three or more newlines becomes exactly two newlines;
shorter runs are kept. -/
def collapseNewlines (t : List Char) : List Char :=
  match t with
  | [] => []
  | c :: rest =>
    if c = '\n' then
      let run := 1 + (rest.takeWhile (fun x => x == '\n')).length
      let rest2 := rest.dropWhile (fun x => x == '\n')
      (if 3 ≤ run then ['\n', '\n'] else List.replicate run '\n')
        ++ collapseNewlines rest2
    else
      c :: collapseNewlines rest
termination_by t.length
decreasing_by
  · have := dropWhile_length_le (fun x => x == '\n') rest
    simp only [List.length_cons]
    omega
  · simp

/-- Python `sep.join(parts)`. -/
def joinWith (sep : String) : List String → String
  | [] => ""
  | [x] => x
  | x :: y :: rest => x ++ sep ++ joinWith sep (y :: rest)

/-! ## The question-marker scanner

`claude_summarizer.py` extracts questions with the compiled regex
`QUESTION_PATTERN = re.compile(r"\[PREGUNTA:\s*(.+?)\]")` and erases the
matches with `QUESTION_PATTERN.sub("", text)`.  The functions below
embed the backtracking semantics of that one fixed pattern: after the
literal marker, the greedy `\s*` tries the longest whitespace run first
and backtracks downwards; for each such choice the lazy `(.+?)` grows a
non-empty capture of non-newline characters until a `]` follows.  The
overall scan is leftmost and non-overlapping, which makes one pass
serve for both `findall` and `sub`. -/

/-- Lazy capture: consume non-newline characters until the first `]`;
`acc` is the reversed capture so far (non-empty). -/
def capTo (acc : List Char) : List Char → Option (List Char × List Char)
  | [] => none
  | c :: rest =>
    if c = ']' then some (acc.reverse, rest)
    else if c = '\n' then none
    else capTo (c :: acc) rest

theorem capTo_length {acc cap t r : List Char}
    (h : capTo acc t = some (cap, r)) : r.length < t.length := by
  induction t generalizing acc with
  | nil => simp [capTo] at h
  | cons c rest ih =>
    simp only [capTo] at h
    by_cases hc : c = ']'
    · simp only [hc, if_pos rfl] at h
      cases h
      simp
    · rw [if_neg hc] at h
      by_cases hn : c = '\n'
      · simp [hn] at h
      · rw [if_neg hn] at h
        exact Nat.lt_trans (ih h) (by simp)

/-- Attempt the `(.+?)\]` part of the pattern at the current position
(the first captured character must exist and not be a newline). -/
def findCapture : List Char → Option (List Char × List Char)
  | [] => none
  | c :: rest => if c = '\n' then none else capTo [c] rest

theorem findCapture_length {cap t r : List Char}
    (h : findCapture t = some (cap, r)) : r.length < t.length := by
  cases t with
  | nil => simp [findCapture] at h
  | cons c rest =>
    simp only [findCapture] at h
    by_cases hn : c = '\n'
    · simp [hn] at h
    · rw [if_neg hn] at h
      exact Nat.lt_trans (capTo_length h) (by simp)

/-- Backtracking over the greedy `\s*`: try a whitespace prefix of
length `k` first, then shorter ones. -/
def tryWs (t : List Char) : Nat → Option (List Char × List Char)
  | 0 => findCapture t
  | k + 1 =>
    match findCapture (t.drop (k + 1)) with
    | some res => some res
    | none => tryWs t k

theorem tryWs_length {t cap r : List Char} {k : Nat}
    (h : tryWs t k = some (cap, r)) : r.length < t.length := by
  induction k with
  | zero => exact findCapture_length h
  | succ k ih =>
    simp only [tryWs] at h
    cases hf : findCapture (t.drop (k + 1)) with
    | none => rw [hf] at h; exact ih h
    | some res =>
      obtain ⟨cap0, r0⟩ := res
      rw [hf] at h
      have h1 := findCapture_length hf
      have hd : (t.drop (k + 1)).length ≤ t.length := by
        simp [List.length_drop]
      have hp : (cap0, r0) = (cap, r) := Option.some.inj h
      have hr : r0 = r := congrArg Prod.snd hp
      subst hr
      omega

/-- The compiled literal of `QUESTION_PATTERN` (the code uses the
Spanish marker). -/
def markerPREGUNTA : List Char := "[PREGUNTA:".data

/-- One left-to-right pass of `QUESTION_PATTERN` over `t`, returning
the text with every match removed (the `sub`) and the list of captured
groups (the `findall`), for the marker literal `lit`. -/
def scanMarkers (lit : List Char) (t : List Char) : List Char × List (List Char) :=
  match t with
  | [] => ([], [])
  | c :: rest =>
    if startsWithL lit (c :: rest) then
      match htry : tryWs (List.drop lit.length (c :: rest))
          (((List.drop lit.length (c :: rest)).takeWhile pyIsSpace).length) with
      | some (cap, after) =>
        let res := scanMarkers lit after
        (res.1, cap :: res.2)
      | none =>
        let res := scanMarkers lit rest
        (c :: res.1, res.2)
    else
      let res := scanMarkers lit rest
      (c :: res.1, res.2)
termination_by t.length
decreasing_by
  · have h1 := tryWs_length htry
    have h2 : (List.drop lit.length (c :: rest)).length ≤ (c :: rest).length := by
      simp [List.length_drop]
    simp only [List.length_cons] at *
    omega
  · simp
  · simp

/-- Embedding of `ClaudeSummarizer._extract_questions`: collect the
`[PREGUNTA: ...]` captures, erase the matches, strip, and collapse runs
of three or more newlines to two. -/
def extract_questions (text : List Char) : List Char × List (List Char) :=
  let scanned := scanMarkers markerPREGUNTA text
  (collapseNewlines (pyStrip scanned.1), scanned.2)

/-- Modelled from the spec: the claim says the scan looks for the
literal `[QUESTION: ...]`; this variant differs from
`extract_questions` only in that marker literal and exists to compare
the two behaviours. -/
def extract_questions_specMarker (text : List Char) : List Char × List (List Char) :=
  let scanned := scanMarkers "[QUESTION:".data text
  (collapseNewlines (pyStrip scanned.1), scanned.2)

/-! ## Event bus (`core/event_bus.py`)

`EventBus.publish` snapshots the handler list for `type(event)`, returns
immediately when it is empty, runs every handler via
`asyncio.gather(..., return_exceptions=True)` — so a raising handler
yields its exception as a value instead of aborting the others — and
then logs each exception together with the handler identity.  A handler
is modelled as a state transformer that may also report an exception;
the cooperative scheduler interleaving is modelled by running the
handlers in list order.  `publish` is a total function: exceptions
never escape it, mirroring `return_exceptions=True`. -/

/-- An async handler: an identity (`__qualname__`) plus an effect on the
shared state that may finish with an exception. -/
structure Handler (σ : Type) where
  id : String
  run : σ → σ × Option String

/-- Result of one `publish`: the final shared state, the identities
invoked (in dispatch order), and the logged `(handler, exception)`
pairs. -/
structure PublishResult (σ : Type) where
  state : σ
  invoked : List String
  log : List (String × String)

/-- Run every handler of the snapshot, collecting each outcome. -/
def runAll {σ : Type} : List (Handler σ) → σ → σ × List (String × Option String)
  | [], s => (s, [])
  | h :: t, s =>
    let p1 := h.run s
    let p2 := runAll t p1.1
    (p2.1, (h.id, p1.2) :: p2.2)

/-- Embedding of `EventBus.publish` restricted to the handlers
registered for the published event type. -/
def publish {σ : Type} (handlers : List (Handler σ)) (s : σ) : PublishResult σ :=
  if handlers.isEmpty then ⟨s, [], []⟩
  else
    let p := runAll handlers s
    ⟨p.1, p.2.map Prod.fst,
      p.2.filterMap (fun q => match q.2 with
        | some e => some (q.1, e)
        | none => none)⟩

theorem runAll_invoked {σ : Type} (hs : List (Handler σ)) (s : σ) :
    (runAll hs s).2.map Prod.fst = hs.map Handler.id := by
  induction hs generalizing s with
  | nil => rfl
  | cons h t ih => simp [runAll, ih]

/-! ## Circuit breaker (`core/resilience.py`)

Timestamps (`time.time()`) are passed in explicitly as rationals.  The
`state` property is effectful in the source — reading it can move an
expired `open` breaker to `half_open` — so it returns the possibly
updated breaker as well. -/

inductive CircuitState
  | closed
  | «open»
  | halfOpen
  deriving DecidableEq, Repr

structure CircuitBreakerConfig where
  failureThreshold : Nat := 5
  recoveryTimeout : ℚ := 30
  halfOpenMaxCalls : Nat := 1
  deriving DecidableEq, Repr

structure CircuitBreaker where
  name : String
  config : CircuitBreakerConfig
  st : CircuitState := CircuitState.closed
  failureCount : Nat := 0
  lastFailureTime : ℚ := 0
  halfOpenCalls : Nat := 0
  deriving DecidableEq, Repr

/-- Embedding of the `CircuitBreaker.state` property: an `open` breaker
whose recovery timeout has elapsed transitions to `half_open`. -/
def CircuitBreaker.state (cb : CircuitBreaker) (now : ℚ) :
    CircuitState × CircuitBreaker :=
  if cb.st = CircuitState.«open» ∧
      cb.config.recoveryTimeout ≤ now - cb.lastFailureTime then
    (CircuitState.halfOpen,
      { cb with st := CircuitState.halfOpen, halfOpenCalls := 0 })
  else
    (cb.st, cb)

/-- Embedding of `CircuitBreaker._on_success`. -/
def CircuitBreaker.on_success (cb : CircuitBreaker) : CircuitBreaker :=
  { cb with st := CircuitState.closed, failureCount := 0 }

/-- Embedding of `CircuitBreaker._on_failure`. -/
def CircuitBreaker.on_failure (cb : CircuitBreaker) (now : ℚ) : CircuitBreaker :=
  if cb.config.failureThreshold ≤ cb.failureCount + 1 then
    { cb with failureCount := cb.failureCount + 1, lastFailureTime := now,
              st := CircuitState.«open» }
  else
    { cb with failureCount := cb.failureCount + 1, lastFailureTime := now }

/-- Errors surfaced by `CircuitBreaker.call`: either the rejection
raised without touching the wrapped operation, or the wrapped
operation's own exception re-raised. -/
inductive CBError
  | circuitOpen (msg : String)
  | wrapped (e : String)
  deriving DecidableEq, Repr

/-- Embedding of `CircuitBreaker.call`.  The wrapped operation is given
by its outcome `op`; the returned boolean records whether the operation
was actually invoked. -/
def CircuitBreaker.call {α : Type} (cb : CircuitBreaker) (now : ℚ)
    (op : Except String α) : Except CBError α × CircuitBreaker × Bool :=
  let p := cb.state now
  if p.1 = CircuitState.«open» then
    (Except.error (CBError.circuitOpen
      ("Circuit " ++ cb.name ++ " is OPEN - call rejected")), p.2, false)
  else if p.1 = CircuitState.halfOpen ∧
      p.2.config.halfOpenMaxCalls ≤ p.2.halfOpenCalls then
    (Except.error (CBError.circuitOpen
      ("Circuit " ++ cb.name ++ " is HALF_OPEN - max test calls reached")),
      p.2, false)
  else
    let cb2 := if p.1 = CircuitState.halfOpen then
        { p.2 with halfOpenCalls := p.2.halfOpenCalls + 1 }
      else p.2
    match op with
    | Except.ok a => (Except.ok a, cb2.on_success, true)
    | Except.error e => (Except.error (CBError.wrapped e), cb2.on_failure now, true)

/-! ## MD5 (`hashlib.md5(...).hexdigest()`)

`OpenAITranscriber._audio_hash` keys its cache with the hex digest of
MD5 over the raw PCM bytes.  This is an implementation of MD5
(RFC 1321) over byte lists, with 32-bit words as naturals reduced
modulo `2 ^ 32`, matching `hashlib.md5(data).hexdigest()`. -/

/-- Sine-derived round constants of MD5. -/
def md5K : List Nat := [
  0xd76aa478, 0xe8c7b756, 0x242070db, 0xc1bdceee,
  0xf57c0faf, 0x4787c62a, 0xa8304613, 0xfd469501,
  0x698098d8, 0x8b44f7af, 0xffff5bb1, 0x895cd7be,
  0x6b901122, 0xfd987193, 0xa679438e, 0x49b40821,
  0xf61e2562, 0xc040b340, 0x265e5a51, 0xe9b6c7aa,
  0xd62f105d, 0x02441453, 0xd8a1e681, 0xe7d3fbc8,
  0x21e1cde6, 0xc33707d6, 0xf4d50d87, 0x455a14ed,
  0xa9e3e905, 0xfcefa3f8, 0x676f02d9, 0x8d2a4c8a,
  0xfffa3942, 0x8771f681, 0x6d9d6122, 0xfde5380c,
  0xa4beea44, 0x4bdecfa9, 0xf6bb4b60, 0xbebfbc70,
  0x289b7ec6, 0xeaa127fa, 0xd4ef3085, 0x04881d05,
  0xd9d4d039, 0xe6db99e5, 0x1fa27cf8, 0xc4ac5665,
  0xf4292244, 0x432aff97, 0xab9423a7, 0xfc93a039,
  0x655b59c3, 0x8f0ccc92, 0xffeff47d, 0x85845dd1,
  0x6fa87e4f, 0xfe2ce6e0, 0xa3014314, 0x4e0811a1,
  0xf7537e82, 0xbd3af235, 0x2ad7d2bb, 0xeb86d391]

/-- Per-round left-rotation amounts of MD5. -/
def md5S : List Nat :=
  [7, 12, 17, 22, 7, 12, 17, 22, 7, 12, 17, 22, 7, 12, 17, 22,
   5, 9, 14, 20, 5, 9, 14, 20, 5, 9, 14, 20, 5, 9, 14, 20,
   4, 11, 16, 23, 4, 11, 16, 23, 4, 11, 16, 23, 4, 11, 16, 23,
   6, 10, 15, 21, 6, 10, 15, 21, 6, 10, 15, 21, 6, 10, 15, 21]

/-- Addition modulo `2 ^ 32`. -/
def add32 (a b : Nat) : Nat := (a + b) % 4294967296

/-- Left rotation of a 32-bit word. -/
def rotl32 (x s : Nat) : Nat :=
  (((x % 4294967296) <<< s) % 4294967296) + ((x % 4294967296) >>> (32 - s))

/-- The four MD5 round functions, selected by the round index. -/
def md5F (i b c d : Nat) : Nat :=
  if i < 16 then (b &&& c) ||| ((0xffffffff ^^^ b) &&& d)
  else if i < 32 then (d &&& b) ||| ((0xffffffff ^^^ d) &&& c)
  else if i < 48 then b ^^^ c ^^^ d
  else c ^^^ (b ||| (0xffffffff ^^^ d))

/-- The message-word schedule of MD5. -/
def md5G (i : Nat) : Nat :=
  if i < 16 then i
  else if i < 32 then (5 * i + 1) % 16
  else if i < 48 then (3 * i + 5) % 16
  else (7 * i) % 16

structure MD5State where
  a : Nat
  b : Nat
  c : Nat
  d : Nat
  deriving DecidableEq, Repr

/-- One of the 64 MD5 rounds on a block `M` of 16 words. -/
def md5Step (M : List Nat) (st : MD5State) (i : Nat) : MD5State :=
  let f := md5F i st.b st.c st.d
  let x := add32 (add32 (add32 st.a f) (md5K.getD i 0)) (M.getD (md5G i) 0)
  ⟨st.d, add32 st.b (rotl32 x (md5S.getD i 0)), st.b, st.c⟩

/-- Decode a 64-byte block into 16 little-endian 32-bit words. -/
def toWordsLE : List Nat → List Nat
  | b0 :: b1 :: b2 :: b3 :: rest =>
    (b0 % 256 + 256 * (b1 % 256) + 65536 * (b2 % 256) + 16777216 * (b3 % 256))
      :: toWordsLE rest
  | _ => []

/-- Process one 64-byte block. -/
def md5ProcessBlock (st : MD5State) (block : List Nat) : MD5State :=
  let M := toWordsLE block
  let r := (List.range 64).foldl (md5Step M) st
  ⟨add32 st.a r.a, add32 st.b r.b, add32 st.c r.c, add32 st.d r.d⟩

/-- MD5 padding: `0x80`, zeros to 56 mod 64, then the bit length as a
64-bit little-endian quantity. -/
def md5Pad (msg : List Nat) : List Nat :=
  let bits := (8 * msg.length) % 18446744073709551616
  let k := (120 - ((msg.length + 1) % 64)) % 64
  msg ++ [128] ++ List.replicate k 0 ++
    (List.range 8).map (fun j => bits / 256 ^ j % 256)

/-- Cut a padded message into 64-byte blocks. -/
def chunks64 : List Nat → List (List Nat)
  | [] => []
  | x :: rest => (x :: rest).take 64 :: chunks64 ((x :: rest).drop 64)
termination_by l => l.length
decreasing_by
  simp only [List.length_drop, List.length_cons]
  omega

def md5Init : MD5State := ⟨0x67452301, 0xefcdab89, 0x98badcfe, 0x10325476⟩

/-- Little-endian byte decomposition of a 32-bit word. -/
def word32ToBytesLE (w : Nat) : List Nat :=
  [w % 256, w / 256 % 256, w / 65536 % 256, w / 16777216 % 256]

/-- The 16-byte MD5 digest of a byte list. -/
def md5Digest (msg : List Nat) : List Nat :=
  let fin := (chunks64 (md5Pad msg)).foldl md5ProcessBlock md5Init
  word32ToBytesLE fin.a ++ word32ToBytesLE fin.b ++
    word32ToBytesLE fin.c ++ word32ToBytesLE fin.d

/-- Lowercase hexadecimal digit. -/
def hexDigit (n : Nat) : Char :=
  if n < 10 then Char.ofNat (48 + n) else Char.ofNat (87 + n % 16)

/-- Lowercase hex digest, as produced by `hexdigest()`. -/
def md5Hex (msg : List Nat) : List Char :=
  (md5Digest msg).foldr
    (fun b acc => hexDigit (b / 16 % 16) :: hexDigit (b % 16) :: acc) []

/-! ## Transcription worker (`transcribers/openai_transcriber.py`)

The remote STT endpoint is an oracle `api` indexed by the number of
calls made so far; `transcribe` additionally reports how many remote
calls it performed.  The WAV in-memory wrapping between cache miss and
remote call is a pure reversible byte transform consumed only by the
remote service, so it is folded into the oracle. -/

structure AudioChunkEvent where
  sessionId : String
  speakerId : String
  speakerName : String
  audioData : List Nat
  timestamp : ℚ
  durationMs : Int
  source : String
  deriving DecidableEq, Repr

structure TranscriptionEvent where
  sessionId : String
  speakerId : String
  speakerName : String
  text : String
  timestamp : ℚ
  confidence : ℚ
  isPartial : Bool
  deriving DecidableEq, Repr

/-- Decidable equality for `Except`, used to evaluate embedded results
on concrete inputs. -/
instance {e a : Type} [DecidableEq e] [DecidableEq a] : DecidableEq (Except e a) :=
  fun x y =>
    match x, y with
    | Except.ok u, Except.ok v =>
      if h : u = v then isTrue (by rw [h])
      else isFalse (by intro hc; cases hc; exact h rfl)
    | Except.error u, Except.error v =>
      if h : u = v then isTrue (by rw [h])
      else isFalse (by intro hc; cases hc; exact h rfl)
    | Except.ok _, Except.error _ => isFalse (by intro hc; cases hc)
    | Except.error _, Except.ok _ => isFalse (by intro hc; cases hc)

/-- Embedding of `OpenAITranscriber._audio_hash`. -/
def audio_hash (audioData : List Nat) : String := String.mk (md5Hex audioData)

structure TranscriberState where
  cache : List (String × String) := []
  deriving DecidableEq, Repr

/-- Embedding of `OpenAITranscriber._call_api_with_retry`: `i` is the
index of the next remote call, the second argument the number of
attempts left (`max_retries + 1` at the top).  Returns the outcome and
the number of remote calls made. -/
def call_api_with_retry (api : Nat → Except String String) :
    Nat → Nat → Except String String × Nat
  | _, 0 => (Except.error "OpenAI API failed: no attempts", 0)
  | i, a + 1 =>
    match api i with
    | Except.ok t => (Except.ok t, 1)
    | Except.error e =>
      if a = 0 then (Except.error ("OpenAI API failed: " ++ e), 1)
      else
        let r := call_api_with_retry api (i + 1) a
        (r.1, r.2 + 1)

/-- Embedding of `OpenAITranscriber.transcribe`: a cache hit keyed by
the MD5 of the PCM emits the cached text with confidence 1 and no
remote call; a miss calls the remote service with retry and fills the
cache. -/
def transcribe (api : Nat → Except String String) (maxRetries : Nat)
    (st : TranscriberState) (ev : AudioChunkEvent) :
    Except String (TranscriptionEvent × TranscriberState) × Nat :=
  let key := audio_hash ev.audioData
  match st.cache.lookup key with
  | some text =>
    let tev : TranscriptionEvent :=
      { sessionId := ev.sessionId, speakerId := ev.speakerId,
        speakerName := ev.speakerName, text := text,
        timestamp := ev.timestamp, confidence := 1, isPartial := false }
    (Except.ok (tev, st), 0)
  | none =>
    let r := call_api_with_retry api 0 (maxRetries + 1)
    match r.1 with
    | Except.ok text =>
      let tev : TranscriptionEvent :=
        { sessionId := ev.sessionId, speakerId := ev.speakerId,
          speakerName := ev.speakerName, text := text,
          timestamp := ev.timestamp, confidence := 0.95, isPartial := false }
      (Except.ok (tev, { st with cache := (key, text) :: st.cache }), r.2)
    | Except.error e => (Except.error e, r.2)

/-! ## Audio segmenter (`listeners/discord_listener.py`)

`_stereo_to_mono` unpacks interleaved little-endian signed 16-bit
samples, averages each left/right pair with Python floor division
(`//`), and repacks.  `struct.unpack` demands that the byte count is a
whole number of stereo frames, so the embedding returns `none` on a
ragged length (a `struct.error` in Python). -/

/-- Decode two bytes as a little-endian signed 16-bit sample, as
`struct.unpack("<h", ...)` does. -/
def bytesToInt16 (b0 b1 : Nat) : Int :=
  let u := b0 % 256 + 256 * (b1 % 256)
  if u < 32768 then (u : Int) else (u : Int) - 65536

/-- Encode a signed 16-bit value as two little-endian bytes, as
`struct.pack("<h", ...)` does. -/
def int16Bytes (x : Int) : List Nat :=
  let u := (x % 65536).toNat
  [u % 256, u / 256]

/-- Averaging loop of `_stereo_to_mono`; `Int.fdiv` is the floor
division that Python `//` performs. -/
def stereoGo : List Nat → List Nat
  | b0 :: b1 :: b2 :: b3 :: rest =>
    int16Bytes (Int.fdiv (bytesToInt16 b0 b1 + bytesToInt16 b2 b3) 2)
      ++ stereoGo rest
  | _ => []

/-- Embedding of `_stereo_to_mono`. -/
def stereo_to_mono (pcm : List Nat) : Option (List Nat) :=
  if pcm.length % 4 = 0 then some (stereoGo pcm) else none

structure ListenerConfig where
  chunk_duration_s : ℚ := 10
  silence_threshold_s : ℚ := 1.5
  short_silence_threshold_s : ℚ := 0.5
  min_chunk_duration_s : ℚ := 0.5
  sample_rate : Nat := 48000
  channels : Nat := 1
  sample_width : Nat := 2
  vad_aggressiveness : Nat := 2
  deriving DecidableEq, Repr

/-- Per-speaker buffer state of `UserAudioBuffer`.  The constructor
initialises `_buffer` empty, `_start_time` to `None` and
`_last_voice_time` to `0.0`. -/
structure UserAudioBuffer where
  config : ListenerConfig
  buffer : List Nat := []
  start_time : Option ℚ := none
  last_voice_time : ℚ := 0
  deriving DecidableEq, Repr

/-- Embedding of the `duration_s` property. -/
def UserAudioBuffer.duration_s (buf : UserAudioBuffer) : ℚ :=
  let bps : ℚ := (buf.config.sample_rate * buf.config.sample_width *
    buf.config.channels : Nat)
  if bps = 0 then 0 else (buf.buffer.length : ℚ) / bps

/-- Embedding of `UserAudioBuffer.flush`: returns
`(audio_bytes, start_timestamp, duration_ms)` and the buffer afterwards.
`start` mirrors the Python expression `self._start_time or time.time()`,
whose falsy test also replaces a stored `0.0`. -/
def UserAudioBuffer.flush (buf : UserAudioBuffer) (now : ℚ) :
    (List Nat × ℚ × Int) × UserAudioBuffer :=
  let start := match buf.start_time with
    | some t => if t = 0 then now else t
    | none => now
  ((buf.buffer, start, Int.floor (buf.duration_s * 1000)),
   { buf with buffer := [], start_time := none })

/-- Embedding of `DiscordListener._emit_chunk` for one speaker: a
missing or too-short buffer emits nothing; otherwise the buffer is
flushed and an `AudioChunkEvent` is published. -/
def emit_chunk (session_id user_id user_name : String)
    (obuf : Option UserAudioBuffer) (now : ℚ) :
    Option AudioChunkEvent × Option UserAudioBuffer :=
  match obuf with
  | none => (none, none)
  | some buf =>
    if buf.duration_s < buf.config.min_chunk_duration_s then (none, some buf)
    else
      let r := buf.flush now
      let ev : AudioChunkEvent :=
        { sessionId := session_id, speakerId := user_id,
          speakerName := user_name, audioData := r.1.1,
          timestamp := r.1.2.1, durationMs := r.1.2.2, source := "discord" }
      (some ev, some r.2)

/-! ## Question store (`core/database.py`)

The `questions` table with its four operations.  SQL `UPDATE ... WHERE`
is modelled as a map over the rows; `AUTOINCREMENT` hands out
`next_id`, starting from 1 as sqlite row ids do. -/

inductive QStatus
  | pending
  | answered
  | processed
  deriving DecidableEq, Repr

structure QuestionRow where
  id : Nat
  session_id : String
  question : String
  answer : Option String := none
  answered_at : Option ℚ := none
  status : QStatus := QStatus.pending
  deriving DecidableEq, Repr

structure DB where
  questions : List QuestionRow := []
  next_id : Nat := 1
  deriving DecidableEq, Repr

/-- Embedding of `Database.save_question`: insert with status
`pending`, returning the new row id. -/
def save_question (db : DB) (session_id question : String) : DB × Nat :=
  ({ questions := db.questions ++
      [{ id := db.next_id, session_id := session_id, question := question }],
     next_id := db.next_id + 1 }, db.next_id)

/-- Embedding of `Database.answer_question`: set answer, `answered_at`
and status `answered` on every row with the given id, whatever its
current status. -/
def answer_question (db : DB) (question_id : Nat) (answer : String)
    (now : ℚ) : DB :=
  { db with questions := db.questions.map (fun r =>
      if r.id = question_id then
        { r with answer := some answer, answered_at := some now,
                 status := QStatus.answered }
      else r) }

/-- Embedding of `Database.get_pending_questions`. -/
def get_pending_questions (db : DB) (session_id : String) : List QuestionRow :=
  db.questions.filter (fun r =>
    r.session_id == session_id && r.status == QStatus.pending)

/-- Embedding of `Database.get_answered_unprocessed_questions`. -/
def get_answered_unprocessed_questions (db : DB) (session_id : String) :
    List QuestionRow :=
  db.questions.filter (fun r =>
    r.session_id == session_id && r.status == QStatus.answered)

/-- Embedding of `Database.mark_questions_processed`. -/
def mark_questions_processed (db : DB) (question_ids : List Nat) : DB :=
  if question_ids.isEmpty then db
  else { db with questions := db.questions.map (fun r =>
      if question_ids.contains r.id then { r with status := QStatus.processed }
      else r) }

/-! ### Status-sequence machinery for the monotonicity claim -/

/-- The storage operations the claim quantifies over. -/
inductive QOp
  | save (session_id question : String)
  | answer (question_id : Nat) (answer : String) (now : ℚ)
  | markProcessed (question_ids : List Nat)
  deriving DecidableEq, Repr

def applyOp (db : DB) : QOp → DB
  | QOp.save sid q => (save_question db sid q).1
  | QOp.answer qid a now => answer_question db qid a now
  | QOp.markProcessed ids => mark_questions_processed db ids

/-- Current status of the question with a given id (first matching row,
as a primary-key lookup returns). -/
def statusOf (db : DB) (qid : Nat) : Option QStatus :=
  (db.questions.find? (fun r => r.id == qid)).map QuestionRow.status

/-- Append an observed status to the status sequence, collapsing
consecutive repetitions. -/
def recordStatus (seq : List QStatus) : Option QStatus → List QStatus
  | none => seq
  | some s => if seq.getLast? = some s then seq else seq ++ [s]

def statusSeqAux (qid : Nat) (db : DB) (seq : List QStatus) :
    List QOp → List QStatus
  | [] => seq
  | op :: ops =>
    let db2 := applyOp db op
    statusSeqAux qid db2 (recordStatus seq (statusOf db2 qid)) ops

/-- The sequence of statuses the question `qid` passes through when the
operations run against an initially empty store. -/
def statusSeq (qid : Nat) (ops : List QOp) : List QStatus :=
  statusSeqAux qid {} [] ops

/-- Guarded use of the store, as the call sites do: questions are
answered from the pending list and marked processed from the
answered-unprocessed list. -/
def validOp (db : DB) : QOp → Bool
  | QOp.save _ _ => true
  | QOp.answer qid _ _ => statusOf db qid == some QStatus.pending
  | QOp.markProcessed ids =>
    ids.all (fun i => statusOf db i == some QStatus.answered)

def validOpsFrom (db : DB) : List QOp → Bool
  | [] => true
  | op :: ops => validOp db op && validOpsFrom (applyOp db op) ops

/-! ## Incremental summarizer (`summarizers/claude_summarizer.py`)

The LLM endpoint is an oracle `llm call-index user-message`; database
failures are modelled by two flags, `dbFetchFails` for
`get_answered_unprocessed_questions` raising inside
`_build_user_answers_block` (which the source calls outside its
`try` block) and `dbSaveFails` for the first `save_question` insert
raising inside the `try` block.  The system prompt is built purely from
the immutable campaign context and only feeds the oracle, so its text
is not reproduced; the user message is.  Each embedded function returns
the state the Python object would hold afterwards, also when an
exception escapes, together with the events published on the bus. -/

structure TranscriptionEntry where
  speaker_id : String
  speaker_name : String
  text : String
  timestamp : ℚ
  deriving DecidableEq, Repr

structure SummarizerState where
  session_id : String
  session_summary : String := ""
  campaign_summary : String := ""
  pending : List TranscriptionEntry := []
  last_update_time : ℚ := 0
  deriving DecidableEq, Repr

/-- Events the summarizer publishes on the bus. -/
inductive BusEvent
  | summaryUpdate (session_id session_summary campaign_summary : String)
      (last_updated : ℚ) (update_type : String)
  | systemStatus (component status message : String)
  deriving DecidableEq, Repr

structure SummarizerEnv where
  llm : Nat → String → Except String String
  maxRetries : Nat
  dbFetchFails : Bool := false
  dbSaveFails : Bool := false

/-- Embedding of `ClaudeSummarizer._format_transcriptions`. -/
def format_transcriptions (entries : List TranscriptionEntry) : String :=
  joinWith "\n" (entries.map (fun e => "[" ++ e.speaker_name ++ "]: " ++ e.text))

/-- Embedding of `ClaudeSummarizer._call_api`: up to `max_retries`
attempts, surfacing the last exception wrapped in a `RuntimeError`
after exhaustion. -/
def claude_call_api (llm : Nat → String → Except String String)
    (userMsg : String) : Nat → Nat → Except String String
  | _, 0 => Except.error "Claude API failed after 0 attempts"
  | i, a + 1 =>
    match llm i userMsg with
    | Except.ok r => Except.ok r
    | Except.error e =>
      if a = 0 then Except.error ("Claude API failed: " ++ e)
      else claude_call_api llm userMsg (i + 1) a

/-- String-level wrapper of `pyStrip`. -/
def pyStripS (s : String) : String := String.mk (pyStrip s.data)

/-- String-level wrapper of `extract_questions`. -/
def extract_questions_s (s : String) : String × List String :=
  let r := extract_questions s.data
  (String.mk r.1, r.2.map String.mk)

/-- Embedding of the `SESSION_UPDATE_USER` template as applied with
`.format`. -/
def SESSION_UPDATE_USER_fmt (recent current block : String) : String :=
  "TRANSCRIPCIÓN RECIENTE:\n" ++ recent ++
  "\n\nRESUMEN ACTUAL DE LA SESIÓN:\n" ++ current ++ "\n" ++ block ++
  "Actualiza el resumen incorporando la nueva transcripción. " ++
  "Devuelve ÚNICAMENTE el resumen actualizado, sin explicaciones adicionales."

/-- Embedding of the `FINALIZE_USER` template as applied with
`.format`. -/
def FINALIZE_USER_fmt (session_summary pending : String) : String :=
  "La sesión ha terminado. A continuación tienes el resumen de sesión " ++
  "y la transcripción completa pendiente.\n\nRESUMEN DE SESIÓN ACTUAL:\n" ++
  session_summary ++
  "\n\nTRANSCRIPCIÓN PENDIENTE:\n" ++ pending ++
  "\n\nGenera:\n1. Un resumen final pulido de la sesión (narrativo, detallado).\n" ++
  "2. Una actualización del resumen de campaña incorporando esta sesión.\n\n" ++
  "Responde con el siguiente formato exacto:\n\n---SESSION_SUMMARY---\n" ++
  "(resumen final de la sesión)\n\n---CAMPAIGN_SUMMARY---\n" ++
  "(resumen actualizado de la campaña)\n"

/-- Embedding of `ClaudeSummarizer._build_user_answers_block`: fetch the
answered-unprocessed questions, format them, and mark them processed.
With no database it returns the empty block. -/
def build_user_answers_block (dbFetchFails : Bool) (odb : Option DB)
    (session_id : String) : Except String (String × Option DB) :=
  match odb with
  | none => Except.ok ("", none)
  | some db =>
    if dbFetchFails then Except.error "DatabaseError"
    else
      let answered := get_answered_unprocessed_questions db session_id
      if answered.isEmpty then Except.ok ("", some db)
      else
        let lines := answered.map (fun r =>
          "- Pregunta: " ++ r.question ++ "\n  Respuesta: " ++ r.answer.getD "")
        let db2 := mark_questions_processed db (answered.map QuestionRow.id)
        Except.ok ("\nRESPUESTAS DEL USUARIO:\n" ++ joinWith "\n" lines
          ++ "\n\n", some db2)

/-- Embedding of `ClaudeSummarizer._save_questions`: one insert per
extracted question, each stored with status `pending`. -/
def save_questions (dbSaveFails : Bool) (odb : Option DB) (session_id : String)
    (qs : List String) : Except String (Option DB) :=
  match odb with
  | none => Except.ok none
  | some db =>
    if qs.isEmpty then Except.ok (some db)
    else if dbSaveFails then Except.error "DatabaseError"
    else Except.ok (some (qs.foldl
      (fun acc q => (save_question acc session_id q).1) db))

/-- Embedding of `ClaudeSummarizer._update_summary` (one incremental
pass).  Returns whether an exception escaped, the state of the
summarizer afterwards, the database afterwards, and the published
events. -/
def update_summary (env : SummarizerEnv) (odb : Option DB)
    (st : SummarizerState) (now : ℚ) :
    Except String Unit × SummarizerState × Option DB × List BusEvent :=
  if st.pending.isEmpty then (Except.ok (), st, odb, [])
  else
    let entries := st.pending
    let st1 := { st with pending := [] }
    match build_user_answers_block env.dbFetchFails odb st.session_id with
    | Except.error e => (Except.error e, st1, odb, [])
    | Except.ok bl =>
      let user_msg := SESSION_UPDATE_USER_fmt (format_transcriptions entries)
        (if st.session_summary = "" then "(inicio de sesión)"
         else st.session_summary)
        (if bl.1 = "" then "\n" else bl.1)
      match claude_call_api env.llm user_msg 0 env.maxRetries with
      | Except.error e =>
        let st2 := { st1 with pending := entries ++ st1.pending }
        (Except.ok (), st2, bl.2,
          [BusEvent.systemStatus "summarizer" "error"
            ("Summary update failed: " ++ e)])
      | Except.ok result =>
        let er := extract_questions_s (pyStripS result)
        match save_questions env.dbSaveFails bl.2 st.session_id er.2 with
        | Except.error e =>
          let st2 := { st1 with pending := entries ++ st1.pending }
          (Except.ok (), st2, bl.2,
            [BusEvent.systemStatus "summarizer" "error"
              ("Summary update failed: " ++ e)])
        | Except.ok db2 =>
          let st2 :=
            { st1 with session_summary := er.1, last_update_time := now }
          (Except.ok (), st2, db2,
            [BusEvent.summaryUpdate st2.session_id st2.session_summary
              st2.campaign_summary now "incremental"])

/-- Embedding of `ClaudeSummarizer.finalize_session`.  The pending
buffer is cleared before the LLM call; an LLM failure escapes to the
caller with nothing published and nothing restored. -/
def finalize_session (env : SummarizerEnv) (st : SummarizerState) (now : ℚ) :
    Except String String × SummarizerState × List BusEvent :=
  let pending_text :=
    if st.pending.isEmpty then "(ninguna)" else format_transcriptions st.pending
  let st1 := { st with pending := [] }
  let user_msg := FINALIZE_USER_fmt
    (if st.session_summary = "" then "(sin resumen todavía)"
     else st.session_summary) pending_text
  match claude_call_api env.llm user_msg 0 env.maxRetries with
  | Except.error e => (Except.error e, st1, [])
  | Except.ok result =>
    let sp :=
      if containsSub "---SESSION_SUMMARY---".data result.data &&
          containsSub "---CAMPAIGN_SUMMARY---".data result.data then
        let parts := pySplitOn "---CAMPAIGN_SUMMARY---".data result.data
        (String.mk (pyStrip (pyReplace "---SESSION_SUMMARY---".data []
            (parts.getD 0 []))),
         String.mk (pyStrip (parts.getD 1 [])))
      else (result, "")
    let st2 := { st1 with
      session_summary := sp.1,
      campaign_summary := if sp.2 ≠ "" then sp.2 else st1.campaign_summary }
    (Except.ok st2.session_summary, st2,
      [BusEvent.summaryUpdate st2.session_id st2.session_summary
        st2.campaign_summary now "final"])

/-! ## Claim theorems -/

/-- C1: for every publish on the event bus and every list of subscribed
handlers for the event type, each handler is invoked exactly once per
publish — the invocation list is exactly the handler list, whatever
exceptions any handler reports — every handler exception is logged with
the handler identity and the exception, `publish` is a total function
(exceptions never propagate out of it, mirroring
`gather(..., return_exceptions=True)`), and a publish with no
subscribers returns without running anything or logging anything. -/
theorem claim_c1_bus_isolation {σ : Type} (hs : List (Handler σ)) (s : σ) :
    (publish hs s).invoked = hs.map Handler.id ∧
    (∀ hid e, (hid, some e) ∈ (runAll hs s).2 → (hid, e) ∈ (publish hs s).log) ∧
    publish ([] : List (Handler σ)) s = ⟨s, [], []⟩ := by
  refine ⟨?_, ?_, rfl⟩
  · by_cases h : hs.isEmpty
    · have hnil : hs = [] := List.isEmpty_iff.mp h
      subst hnil
      rfl
    · simp only [publish, if_neg h]
      exact runAll_invoked hs s
  · intro hid e hmem
    by_cases h : hs.isEmpty
    · have hnil : hs = [] := List.isEmpty_iff.mp h
      subst hnil
      simp [runAll] at hmem
    · simp only [publish, if_neg h]
      exact List.mem_filterMap.mpr ⟨(hid, some e), hmem, rfl⟩

/-- Witness for C1: a concrete bus with a handler that always raises and
a sibling handler; the sibling is still invoked and the exception is
logged with the raising handler's identity. -/
theorem claim_c1_witness :
    (publish [(⟨"boom", fun n => (n + 1, some "RuntimeError")⟩ : Handler Nat),
              ⟨"ok", fun n => (n + 10, none)⟩] 0).invoked = ["boom", "ok"] ∧
    ("boom", "RuntimeError") ∈
      (publish [(⟨"boom", fun n => (n + 1, some "RuntimeError")⟩ : Handler Nat),
                ⟨"ok", fun n => (n + 10, none)⟩] 0).log := by
  have h := claim_c1_bus_isolation
    [(⟨"boom", fun n => (n + 1, some "RuntimeError")⟩ : Handler Nat),
     ⟨"ok", fun n => (n + 10, none)⟩] 0
  refine ⟨by simpa using h.1, h.2.1 "boom" "RuntimeError" ?_⟩
  simp [runAll]

/-- Example breaker used by the circuit-breaker witness: `open`, last
failure at time 100, default 30-second recovery timeout. -/
def cbOpenExample : CircuitBreaker :=
  { name := "stt", config := {}, st := CircuitState.«open»,
    failureCount := 5, lastFailureTime := 100, halfOpenCalls := 0 }

/-- C6: while the breaker is `open` and less than `recovery_timeout`
has elapsed since the last failure, every `call` fails with the
`circuit_open` error, the wrapped operation is not invoked (the flag is
`false`) and the breaker is unchanged; once `recovery_timeout` has
elapsed, reading the `state` property moves the breaker to
`half_open`. -/
theorem claim_c6_circuit_open_rejects {α : Type} (cb : CircuitBreaker)
    (now : ℚ) (op : Except String α)
    (hopen : cb.st = CircuitState.«open») :
    (now - cb.lastFailureTime < cb.config.recoveryTimeout →
      ∃ msg, cb.call now op =
        (Except.error (CBError.circuitOpen msg), cb, false)) ∧
    (cb.config.recoveryTimeout ≤ now - cb.lastFailureTime →
      (cb.state now).1 = CircuitState.halfOpen) := by
  constructor
  · intro hlt
    have hnot : ¬ (cb.st = CircuitState.«open» ∧
        cb.config.recoveryTimeout ≤ now - cb.lastFailureTime) := by
      rintro ⟨-, hle⟩
      exact absurd hle (not_le.mpr hlt)
    refine ⟨"Circuit " ++ cb.name ++ " is OPEN - call rejected", ?_⟩
    simp only [CircuitBreaker.call, CircuitBreaker.state, if_neg hnot,
      if_pos hopen]
  · intro hle
    simp only [CircuitBreaker.state, if_pos (And.intro hopen hle)]

/-- Witness for C6 at a concrete breaker: a call 10 seconds after the
failure is rejected without invoking the operation, and reading the
state 100 seconds after the failure yields `half_open`. -/
theorem claim_c6_witness :
    (∃ msg, cbOpenExample.call (α := Unit) 110 (Except.ok ()) =
      (Except.error (CBError.circuitOpen msg), cbOpenExample, false)) ∧
    (cbOpenExample.state 200).1 = CircuitState.halfOpen := by
  have h1 := claim_c6_circuit_open_rejects (α := Unit) cbOpenExample 110
    (Except.ok ()) rfl
  have h2 := claim_c6_circuit_open_rejects (α := Unit) cbOpenExample 200
    (Except.ok ()) rfl
  exact ⟨h1.1 (by norm_num [cbOpenExample]), h2.2 (by norm_num [cbOpenExample])⟩

/-- C5: calling `transcribe` twice with chunks carrying identical PCM
bytes, starting from a cache without that MD5 key and a remote service
that answers the first call, yields the same text both times, exactly
one remote call in total (one for the first, zero for the second), and
the cached result is emitted with confidence 1 and `is_partial` false.
The cache key is `audio_hash`, the MD5 hex digest of the PCM bytes. -/
theorem claim_c5_cache_idempotence (api : Nat → Except String String)
    (maxRetries : Nat) (st : TranscriberState) (ev1 ev2 : AudioChunkEvent)
    (t : String)
    (hsame : ev2.audioData = ev1.audioData)
    (hfresh : st.cache.lookup (audio_hash ev1.audioData) = none)
    (hok : api 0 = Except.ok t) :
    ∃ tev1 st1 tev2,
      transcribe api maxRetries st ev1 = (Except.ok (tev1, st1), 1) ∧
      transcribe api maxRetries st1 ev2 = (Except.ok (tev2, st1), 0) ∧
      tev1.text = t ∧ tev2.text = t ∧
      tev2.confidence = 1 ∧ tev2.isPartial = false := by
  have hcall : call_api_with_retry api 0 (maxRetries + 1) = (Except.ok t, 1) := by
    simp [call_api_with_retry, hok]
  refine ⟨⟨ev1.sessionId, ev1.speakerId, ev1.speakerName, t, ev1.timestamp,
      0.95, false⟩,
    ⟨(audio_hash ev1.audioData, t) :: st.cache⟩,
    ⟨ev2.sessionId, ev2.speakerId, ev2.speakerName, t, ev2.timestamp,
      1, false⟩, ?_, ?_, rfl, rfl, rfl, rfl⟩
  · simp only [transcribe, hfresh, hcall]
  · simp only [transcribe, hsame]
    simp [List.lookup]

/-- Audio chunk used by the cache witness. -/
def chunkA : AudioChunkEvent :=
  { sessionId := "s1", speakerId := "u1", speakerName := "Ana",
    audioData := [0, 1, 2, 3], timestamp := 0, durationMs := 500,
    source := "discord" }

/-- Second chunk of the cache witness: identical PCM, later timestamp. -/
def chunkB : AudioChunkEvent := { chunkA with timestamp := 7 }

/-- Remote service used by the cache witness: every call answers with
the same text. -/
def api0 : Nat → Except String String := fun _ => Except.ok "hola"

/-- Transcriber state after the first witness transcription. -/
def st1c : TranscriberState :=
  ((transcribe api0 2 {} chunkA).1.toOption.map Prod.snd).getD {}

/-- Witness for C5 at a concrete chunk pair: the first call makes one
remote call, the repeat makes none, both produce the same text, and the
cached emission carries confidence 1 and is not partial. -/
theorem claim_c5_witness :
    (transcribe api0 2 {} chunkA).2 = 1 ∧
    (transcribe api0 2 st1c chunkB).2 = 0 ∧
    ((transcribe api0 2 {} chunkA).1.toOption.map (fun p => p.1.text))
      = some "hola" ∧
    ((transcribe api0 2 st1c chunkB).1.toOption.map
        (fun p => (p.1.text, p.1.confidence, p.1.isPartial)))
      = some ("hola", 1, false) := by
  obtain ⟨tev1, st1, tev2, h1, h2, h3, h4, h5, h6⟩ :=
    claim_c5_cache_idempotence api0 2 {} chunkA chunkB "hola" rfl rfl rfl
  have hst : st1c = st1 := by
    simp [st1c, h1, Except.toOption]
  refine ⟨?_, ?_, ?_, ?_⟩ <;>
    simp [hst, h1, h2, h3, h4, h5, h6, Except.toOption]

theorem bytesToInt16_range (b0 b1 : Nat) :
    -32768 ≤ bytesToInt16 b0 b1 ∧ bytesToInt16 b0 b1 < 32768 := by
  unfold bytesToInt16
  dsimp only
  have h0 : b0 % 256 < 256 := Nat.mod_lt _ (by norm_num)
  have h1 : b1 % 256 < 256 := Nat.mod_lt _ (by norm_num)
  split <;> constructor <;> omega

theorem bytesToInt16_int16Bytes (x : Int) (h1 : -32768 ≤ x) (h2 : x < 32768) :
    bytesToInt16 ((x % 65536).toNat % 256) ((x % 65536).toNat / 256) = x := by
  unfold bytesToInt16
  dsimp only
  have he1 : 0 ≤ x % 65536 := Int.emod_nonneg x (by norm_num)
  have he2 : x % 65536 < 65536 := Int.emod_lt_of_pos x (by norm_num)
  split <;> omega

/-- Decoding the two bytes that `int16Bytes` packs (also when followed
by further output) recovers the in-range value. -/
theorem decode_encode_append (x : Int) (S : List Nat)
    (h1 : -32768 ≤ x) (h2 : x < 32768) :
    bytesToInt16 ((int16Bytes x ++ S).getD 0 0) ((int16Bytes x ++ S).getD 1 0)
      = x :=
  bytesToInt16_int16Bytes x h1 h2

theorem stereoGo_length (pcm : List Nat) :
    (stereoGo pcm).length = 2 * (pcm.length / 4) := by
  match pcm with
  | [] => rfl
  | [_] => norm_num [stereoGo]
  | [_, _] => norm_num [stereoGo]
  | [_, _, _] => norm_num [stereoGo]
  | b0 :: b1 :: b2 :: b3 :: rest =>
    have ih := stereoGo_length rest
    have hl : (int16Bytes (Int.fdiv (bytesToInt16 b0 b1 + bytesToInt16 b2 b3) 2)).length = 2 := rfl
    simp only [stereoGo, List.length_append, List.length_cons, ih, hl]
    omega

/-- Sample-level description of the averaging loop: the `i`-th mono
sample decodes to the floor-divided average of the `i`-th stereo
pair. -/
theorem stereoGo_sample (pcm : List Nat) (i : Nat) (hi : i < pcm.length / 4) :
    bytesToInt16 ((stereoGo pcm).getD (2 * i) 0)
        ((stereoGo pcm).getD (2 * i + 1) 0) =
      Int.fdiv (bytesToInt16 (pcm.getD (4 * i) 0) (pcm.getD (4 * i + 1) 0) +
        bytesToInt16 (pcm.getD (4 * i + 2) 0) (pcm.getD (4 * i + 3) 0)) 2 := by
  match pcm with
  | [] => exact absurd hi (by norm_num)
  | [_] => exact absurd hi (by norm_num)
  | [_, _] => exact absurd hi (by norm_num)
  | [_, _, _] => exact absurd hi (by norm_num)
  | b0 :: b1 :: b2 :: b3 :: rest =>
    cases i with
    | zero =>
      have r1 := bytesToInt16_range b0 b1
      have r2 := bytesToInt16_range b2 b3
      have hlo : -32768 ≤ Int.fdiv (bytesToInt16 b0 b1 + bytesToInt16 b2 b3) 2 := by
        rw [Int.fdiv_eq_ediv _ (by norm_num)]
        omega
      have hhi : Int.fdiv (bytesToInt16 b0 b1 + bytesToInt16 b2 b3) 2 < 32768 := by
        rw [Int.fdiv_eq_ediv _ (by norm_num)]
        omega
      exact decode_encode_append _ (stereoGo rest) hlo hhi
    | succ j =>
      have hj : j < rest.length / 4 := by
        simp only [List.length_cons] at hi
        omega
      have ih := stereoGo_sample rest j hj
      have hsg : stereoGo (b0 :: b1 :: b2 :: b3 :: rest) =
          ((Int.fdiv (bytesToInt16 b0 b1 + bytesToInt16 b2 b3) 2 % 65536).toNat % 256) ::
          ((Int.fdiv (bytesToInt16 b0 b1 + bytesToInt16 b2 b3) 2 % 65536).toNat / 256) ::
          stereoGo rest := rfl
      have i1 : 2 * (j + 1) = 2 * j + 1 + 1 := by ring
      have i2 : 2 * (j + 1) + 1 = 2 * j + 1 + 1 + 1 := by ring
      have i3 : 4 * (j + 1) = 4 * j + 1 + 1 + 1 + 1 := by ring
      have i4 : 4 * (j + 1) + 1 = 4 * j + 1 + 1 + 1 + 1 + 1 := by ring
      have i5 : 4 * (j + 1) + 2 = 4 * j + 2 + 1 + 1 + 1 + 1 := by ring
      have i6 : 4 * (j + 1) + 3 = 4 * j + 3 + 1 + 1 + 1 + 1 := by ring
      rw [hsg, i2, i1, i6, i5, i4, i3]
      simp only [List.getD_cons_succ]
      exact ih

/-- C8 (amended): for every interleaved 16-bit stereo input whose byte
count is a whole number of stereo frames, the conversion succeeds,
halves the byte count, and each output sample is the average of the
left and right samples rounded toward negative infinity — Python floor
division — not toward zero. -/
theorem claim_c8_amended_floor_average (pcm : List Nat)
    (h4 : pcm.length % 4 = 0) :
    ∃ out, stereo_to_mono pcm = some out ∧ out.length = pcm.length / 2 ∧
      ∀ i, i < pcm.length / 4 →
        bytesToInt16 (out.getD (2 * i) 0) (out.getD (2 * i + 1) 0) =
          Int.fdiv (bytesToInt16 (pcm.getD (4 * i) 0) (pcm.getD (4 * i + 1) 0) +
            bytesToInt16 (pcm.getD (4 * i + 2) 0) (pcm.getD (4 * i + 3) 0)) 2 := by
  refine ⟨stereoGo pcm, ?_, ?_, fun i hi => stereoGo_sample pcm i hi⟩
  · simp [stereo_to_mono, h4]
  · rw [stereoGo_length]
    omega

/-- Counterexample for C8 as stated: on the stereo frame with samples
`-1` (left) and `-2` (right), the code outputs the sample `-2`
(floor of `-3 / 2`), while rounding toward zero would give `-1`. -/
theorem claim_c8_counterexample :
    stereo_to_mono [255, 255, 254, 255] = some [254, 255] ∧
    int16Bytes (Int.tdiv (bytesToInt16 255 255 + bytesToInt16 254 255) 2)
      = [255, 255] ∧
    ([254, 255] : List Nat) ≠ [255, 255] :=
  ⟨by decide, by decide, by decide⟩

/-- Witness for C8 at the concrete frame of the counterexample,
instantiating the per-sample property at sample 0. -/
theorem claim_c8_witness :
    stereo_to_mono [255, 255, 254, 255] = some (stereoGo [255, 255, 254, 255]) ∧
    bytesToInt16 ((stereoGo [255, 255, 254, 255]).getD 0 0)
        ((stereoGo [255, 255, 254, 255]).getD 1 0) =
      Int.fdiv (bytesToInt16 255 255 + bytesToInt16 254 255) 2 := by
  obtain ⟨out, h1, h2, h3⟩ :=
    claim_c8_amended_floor_average [255, 255, 254, 255] (by decide)
  have e1 : stereo_to_mono [255, 255, 254, 255]
      = some (stereoGo [255, 255, 254, 255]) := by
    simp [stereo_to_mono]
  have hout : out = stereoGo [255, 255, 254, 255] :=
    Option.some.inj (h1.symm.trans e1)
  subst hout
  have h0 := h3 0 (by decide)
  refine ⟨e1, ?_⟩
  simpa using h0

/-- C9 (amended): whenever `_emit_chunk` emits a chunk, the emitted
audio is the buffered audio and the buffer afterwards has the audio
bytes cleared and the first-sample timestamp cleared, while the
last-voice timestamp keeps its previous value — `flush` does not clear
`_last_voice_time`. -/
theorem claim_c9_amended_flush_reset (sid uid uname : String)
    (buf : UserAudioBuffer) (now : ℚ) (ev : AudioChunkEvent)
    (b2 : Option UserAudioBuffer)
    (h : emit_chunk sid uid uname (some buf) now = (some ev, b2)) :
    b2 = some { buf with buffer := [], start_time := none } ∧
    ev.audioData = buf.buffer := by
  unfold emit_chunk at h
  dsimp only at h
  by_cases hd : buf.duration_s < buf.config.min_chunk_duration_s
  · rw [if_pos hd] at h
    simp at h
  · rw [if_neg hd] at h
    unfold UserAudioBuffer.flush at h
    simp only [Prod.mk.injEq, Option.some.injEq] at h
    obtain ⟨hev, hb2⟩ := h
    subst hev
    exact ⟨hb2.symm, rfl⟩

/-- Buffer used by the C9 counterexample and witness: 4 bytes at a
4 Hz, 1-byte, mono test configuration give a 1-second buffer, above the
default minimum chunk duration; the last-voice timestamp is 7. -/
def bufC9 : UserAudioBuffer :=
  { config := { sample_rate := 4, sample_width := 1, channels := 1 },
    buffer := [0, 0, 0, 0], start_time := some 3, last_voice_time := 7 }

/-- Chunk emitted from `bufC9`. -/
def evC9 : AudioChunkEvent :=
  { sessionId := "s1", speakerId := "u1", speakerName := "Ana",
    audioData := [0, 0, 0, 0], timestamp := 3, durationMs := 1000,
    source := "discord" }

theorem bufC9_duration : bufC9.duration_s = 1 := by
  norm_num [UserAudioBuffer.duration_s, bufC9]

theorem emitC9_eq : emit_chunk "s1" "u1" "Ana" (some bufC9) 10 =
    (some evC9, some { bufC9 with buffer := [], start_time := none }) := by
  have hflush : bufC9.flush 10 =
      (([0, 0, 0, 0], 3, 1000), { bufC9 with buffer := [], start_time := none }) := by
    unfold UserAudioBuffer.flush
    rw [bufC9_duration]
    norm_num [bufC9]
  unfold emit_chunk
  dsimp only
  rw [if_neg (by rw [bufC9_duration]; norm_num [bufC9]), hflush]
  rfl

/-- Counterexample for C9 as stated: emitting from `bufC9` leaves the
last-voice timestamp at its old value 7 instead of clearing it to its
initial value 0. -/
theorem claim_c9_counterexample :
    (emit_chunk "s1" "u1" "Ana" (some bufC9) 10).1.isSome = true ∧
    ((emit_chunk "s1" "u1" "Ana" (some bufC9) 10).2.map
      UserAudioBuffer.last_voice_time) = some 7 ∧ (7 : ℚ) ≠ 0 := by
  rw [emitC9_eq]
  refine ⟨rfl, by simp [bufC9], by norm_num⟩

/-- Witness for C9 at the concrete buffer `bufC9`. -/
theorem claim_c9_witness :
    (emit_chunk "s1" "u1" "Ana" (some bufC9) 10).2 =
      some { bufC9 with buffer := [], start_time := none } ∧
    evC9.audioData = bufC9.buffer := by
  have e : emit_chunk "s1" "u1" "Ana" (some bufC9) 10 =
      (some evC9, (emit_chunk "s1" "u1" "Ana" (some bufC9) 10).2) := by
    rw [emitC9_eq]
  exact claim_c9_amended_flush_reset "s1" "u1" "Ana" bufC9 10 evC9 _ e

/-! ### Question-status monotonicity machinery -/

/-- Canonical status history determined by the current status of a
question under the guarded call discipline. -/
def canon : Option QStatus → List QStatus
  | none => []
  | some QStatus.pending => [QStatus.pending]
  | some QStatus.answered => [QStatus.pending, QStatus.answered]
  | some QStatus.processed =>
    [QStatus.pending, QStatus.answered, QStatus.processed]

/-- Row ids handed out so far stay below the autoincrement counter. -/
def idsBounded (db : DB) : Prop :=
  ∀ r ∈ db.questions, r.id < db.next_id

theorem canon_getLast (st : QStatus) :
    (canon (some st)).getLast? = some st := by
  cases st <;> rfl

theorem recordStatus_canon_self (s : Option QStatus) :
    recordStatus (canon s) s = canon s := by
  cases s with
  | none => rfl
  | some st => simp [recordStatus, canon_getLast]

theorem canon_isPrefixOf (s : Option QStatus) :
    (canon s).isPrefixOf
      [QStatus.pending, QStatus.answered, QStatus.processed] = true := by
  cases s with
  | none => decide
  | some st => cases st <;> decide

theorem statusOf_update (db : DB) (qid : Nat) (g : QuestionRow → QuestionRow)
    (hg : ∀ r, (g r).id = r.id) :
    statusOf { db with questions := db.questions.map g } qid
      = (db.questions.find? (fun r => r.id == qid)).map
          (fun r => (g r).status) := by
  unfold statusOf
  dsimp only
  rw [List.find?_map]
  have hp : ((fun r : QuestionRow => r.id == qid) ∘ g)
      = (fun r : QuestionRow => r.id == qid) := by
    funext r
    simp [Function.comp, hg]
  rw [hp]
  cases db.questions.find? (fun r => r.id == qid) <;> rfl

theorem statusOf_save_self (db : DB) (sid q : String) (hb : idsBounded db) :
    statusOf (applyOp db (QOp.save sid q)) db.next_id
      = some QStatus.pending := by
  unfold statusOf applyOp save_question
  dsimp only
  rw [List.find?_append]
  have h1 : db.questions.find? (fun r => r.id == db.next_id) = none := by
    rw [List.find?_eq_none]
    intro r hr hpr
    have := hb r hr
    simp only [beq_iff_eq] at hpr
    omega
  rw [h1]
  simp [List.find?_cons]

theorem statusOf_save_other (db : DB) (sid q : String) (qid : Nat)
    (hne : qid ≠ db.next_id) :
    statusOf (applyOp db (QOp.save sid q)) qid = statusOf db qid := by
  unfold statusOf applyOp save_question
  dsimp only
  rw [List.find?_append]
  cases hf : db.questions.find? (fun r => r.id == qid) with
  | some r => simp [Option.or]
  | none =>
    have h2 : (db.next_id == qid) = false := by
      simp
      omega
    simp [Option.or, List.find?_cons, h2]

theorem statusOf_answer_self (db : DB) (qid : Nat) (a : String) (t : ℚ)
    (s : QStatus) (hs : statusOf db qid = some s) :
    statusOf (applyOp db (QOp.answer qid a t)) qid
      = some QStatus.answered := by
  have hg : ∀ r : QuestionRow,
      ((fun r => if r.id = qid then
        { r with answer := some a, answered_at := some t,
                 status := QStatus.answered } else r) r).id = r.id := by
    intro r
    by_cases h : r.id = qid <;> simp [h]
  have hupd := statusOf_update db qid _ hg
  show statusOf { db with questions := db.questions.map _ } qid = _
  rw [hupd]
  unfold statusOf at hs
  cases hf : db.questions.find? (fun r => r.id == qid) with
  | none => rw [hf] at hs; simp at hs
  | some r =>
    have hr : r.id = qid := by
      have := List.find?_some hf
      simpa using this
    simp [hr]

theorem statusOf_answer_other (db : DB) (qid qid2 : Nat) (a : String) (t : ℚ)
    (hne : qid ≠ qid2) :
    statusOf (applyOp db (QOp.answer qid2 a t)) qid = statusOf db qid := by
  have hg : ∀ r : QuestionRow,
      ((fun r => if r.id = qid2 then
        { r with answer := some a, answered_at := some t,
                 status := QStatus.answered } else r) r).id = r.id := by
    intro r
    by_cases h : r.id = qid2 <;> simp [h]
  have hupd := statusOf_update db qid _ hg
  show statusOf { db with questions := db.questions.map _ } qid = _
  rw [hupd]
  unfold statusOf
  cases hf : db.questions.find? (fun r => r.id == qid) with
  | none => rfl
  | some r =>
    have hr : r.id = qid := by
      have := List.find?_some hf
      simpa using this
    have : ¬ r.id = qid2 := by rw [hr]; exact hne
    simp [this]

theorem statusOf_mark_self (db : DB) (ids : List Nat) (qid : Nat)
    (hmem : ids.contains qid = true)
    (s : QStatus) (hs : statusOf db qid = some s) :
    statusOf (applyOp db (QOp.markProcessed ids)) qid
      = some QStatus.processed := by
  unfold applyOp mark_questions_processed
  dsimp only
  have hne : ids.isEmpty = false := by
    cases ids with
    | nil => simp at hmem
    | cons x xs => rfl
  rw [if_neg (by rw [hne]; exact Bool.false_ne_true)]
  have hg : ∀ r : QuestionRow,
      ((fun r => if ids.contains r.id then
        { r with status := QStatus.processed } else r) r).id = r.id := by
    intro r
    dsimp only
    split <;> rfl
  have hupd := statusOf_update db qid _ hg
  rw [hupd]
  unfold statusOf at hs
  have hmem2 : qid ∈ ids := by simpa using hmem
  cases hf : db.questions.find? (fun r => r.id == qid) with
  | none => rw [hf] at hs; simp at hs
  | some r =>
    have hr : r.id = qid := by
      have := List.find?_some hf
      simpa using this
    simp [hr, hmem2]

theorem statusOf_mark_other (db : DB) (ids : List Nat) (qid : Nat)
    (hmem : ids.contains qid = false) :
    statusOf (applyOp db (QOp.markProcessed ids)) qid = statusOf db qid := by
  unfold applyOp mark_questions_processed
  dsimp only
  by_cases he : ids.isEmpty = true
  · rw [if_pos he]
  · rw [if_neg he]
    have hg : ∀ r : QuestionRow,
        ((fun r => if ids.contains r.id then
          { r with status := QStatus.processed } else r) r).id = r.id := by
      intro r
      dsimp only
      split <;> rfl
    have hupd := statusOf_update db qid _ hg
    rw [hupd]
    unfold statusOf
    have hmem2 : qid ∉ ids := by simpa using hmem
    cases hf : db.questions.find? (fun r => r.id == qid) with
    | none => rfl
    | some r =>
      have hr : r.id = qid := by
        have := List.find?_some hf
        simpa using this
      simp [hr, hmem2]

theorem idsBounded_applyOp (db : DB) (op : QOp) (hb : idsBounded db) :
    idsBounded (applyOp db op) := by
  cases op with
  | save sid q =>
    intro r hr
    unfold applyOp save_question at hr ⊢
    dsimp only at hr ⊢
    rcases List.mem_append.mp hr with h | h
    · exact Nat.lt_trans (hb r h) (Nat.lt_succ_self _)
    · simp only [List.mem_singleton] at h
      subst h
      exact Nat.lt_succ_self _
  | answer qid a t =>
    intro r hr
    unfold applyOp answer_question at hr ⊢
    dsimp only at hr ⊢
    obtain ⟨r0, hr0, hgr⟩ := List.mem_map.mp hr
    have hid : r.id = r0.id := by
      subst hgr
      by_cases h : r0.id = qid <;> simp [h]
    rw [hid]
    exact hb r0 hr0
  | markProcessed ids =>
    intro r hr
    unfold applyOp mark_questions_processed at hr ⊢
    dsimp only at hr ⊢
    by_cases he : ids.isEmpty = true
    · rw [if_pos he] at hr ⊢
      exact hb r hr
    · rw [if_neg he] at hr ⊢
      obtain ⟨r0, hr0, hgr⟩ := List.mem_map.mp hr
      have hid : r.id = r0.id := by
        subst hgr
        split <;> rfl
      rw [hid]
      exact hb r0 hr0

/-- One guarded operation keeps the recorded status sequence equal to
the canonical history of the current status. -/
theorem recordStatus_step (db : DB) (op : QOp) (qid : Nat)
    (hv : validOp db op = true) (hb : idsBounded db) :
    recordStatus (canon (statusOf db qid)) (statusOf (applyOp db op) qid)
      = canon (statusOf (applyOp db op) qid) := by
  cases op with
  | save sid q =>
    by_cases hq : qid = db.next_id
    · have hnone : statusOf db qid = none := by
        unfold statusOf
        rw [List.find?_eq_none.mpr]
        · rfl
        · intro r hr hpr
          have := hb r hr
          simp only [beq_iff_eq] at hpr
          omega
      rw [hnone, hq, statusOf_save_self db sid q hb]
      decide
    · rw [statusOf_save_other db sid q qid hq]
      exact recordStatus_canon_self _
  | answer qid2 a t =>
    by_cases hq : qid = qid2
    · subst hq
      have hpend : statusOf db qid = some QStatus.pending := by
        unfold validOp at hv
        simpa using hv
      rw [hpend, statusOf_answer_self db qid a t QStatus.pending hpend]
      rfl
    · rw [statusOf_answer_other db qid qid2 a t hq]
      exact recordStatus_canon_self _
  | markProcessed ids =>
    cases hmem : ids.contains qid with
    | true =>
      have hans : statusOf db qid = some QStatus.answered := by
        unfold validOp at hv
        rw [List.all_eq_true] at hv
        have := hv qid (by simpa using hmem)
        simpa using this
      rw [hans, statusOf_mark_self db ids qid hmem QStatus.answered hans]
      rfl
    | false =>
      rw [statusOf_mark_other db ids qid hmem]
      exact recordStatus_canon_self _

/-- Under guarded use, the recorded status sequence is always the
canonical history of some status. -/
theorem statusSeqAux_canon (qid : Nat) (ops : List QOp) :
    ∀ (db : DB) (seq : List QStatus),
      validOpsFrom db ops = true → idsBounded db →
      seq = canon (statusOf db qid) →
      ∃ s, statusSeqAux qid db seq ops = canon s := by
  induction ops with
  | nil =>
    intro db seq _ _ hseq
    exact ⟨statusOf db qid, hseq⟩
  | cons op ops ih =>
    intro db seq hv hb hseq
    unfold validOpsFrom at hv
    rw [Bool.and_eq_true] at hv
    have hstep : recordStatus seq (statusOf (applyOp db op) qid)
        = canon (statusOf (applyOp db op) qid) := by
      rw [hseq]
      exact recordStatus_step db op qid hv.1 hb
    unfold statusSeqAux
    dsimp only
    rw [hstep]
    exact ih (applyOp db op) _ hv.2 (idsBounded_applyOp db op hb) rfl

/-- C7 (amended): for every question id and every sequence of store
operations that is guarded the way the call sites use the store —
`answer_question` only on questions currently `pending` (the Discord
modal and web route answer questions taken from the pending list) and
`mark_questions_processed` only on questions currently `answered` (the
summarizer marks the rows returned by
`get_answered_unprocessed_questions`) — the status sequence of the
question is a prefix of `pending, answered, processed`, and
`get_answered_unprocessed_questions` never returns a `processed`
question, so processed questions are never re-injected into a prompt.
Unguarded, `answer_question` sets status `answered` regardless of the
current status, so a processed question can regress (see the
counterexample). -/
theorem claim_c7_amended_question_monotonicity (qid : Nat) (ops : List QOp)
    (hv : validOpsFrom {} ops = true) :
    (statusSeq qid ops).isPrefixOf
      [QStatus.pending, QStatus.answered, QStatus.processed] = true ∧
    ∀ (db : DB) (sid : String) (r : QuestionRow),
      r ∈ get_answered_unprocessed_questions db sid →
      r.status = QStatus.answered := by
  constructor
  · have hb : idsBounded ({} : DB) := by
      intro r hr
      simp [DB.questions] at hr
    obtain ⟨s, hs⟩ := statusSeqAux_canon qid ops {} [] hv hb rfl
    unfold statusSeq
    rw [hs]
    exact canon_isPrefixOf s
  · intro db sid r hr
    unfold get_answered_unprocessed_questions at hr
    have := List.of_mem_filter hr
    rw [Bool.and_eq_true] at this
    simpa using this.2

/-- Counterexample for C7 as stated: after save, answer, mark-processed,
calling `answer_question` again on the same id moves the question from
`processed` back to `answered`, so the status sequence
`pending, answered, processed, answered` is not a prefix of
`pending, answered, processed`. -/
theorem claim_c7_counterexample :
    statusSeq 1 [QOp.save "s" "q", QOp.answer 1 "a" 0,
        QOp.markProcessed [1], QOp.answer 1 "b" 1]
      = [QStatus.pending, QStatus.answered, QStatus.processed,
         QStatus.answered] ∧
    (statusSeq 1 [QOp.save "s" "q", QOp.answer 1 "a" 0,
        QOp.markProcessed [1], QOp.answer 1 "b" 1]).isPrefixOf
      [QStatus.pending, QStatus.answered, QStatus.processed] = false :=
  ⟨by decide, by decide⟩

/-- Witness for C7 on a concrete guarded run: save, answer, mark. -/
theorem claim_c7_witness :
    (statusSeq 1 [QOp.save "s" "q", QOp.answer 1 "a" 0,
        QOp.markProcessed [1]]).isPrefixOf
      [QStatus.pending, QStatus.answered, QStatus.processed] = true :=
  (claim_c7_amended_question_monotonicity 1
    [QOp.save "s" "q", QOp.answer 1 "a" 0, QOp.markProcessed [1]]
    (by decide)).1

/-! ### Newline-collapse property -/

theorem dropWhile_head_false (p : Char → Bool) (l : List Char) (c : Char)
    (h : (l.dropWhile p).head? = some c) : p c = false := by
  induction l with
  | nil => simp at h
  | cons a t ih =>
    by_cases hp : p a
    · have he : (a :: t).dropWhile p = t.dropWhile p := by
        simp [List.dropWhile, hp]
      rw [he] at h
      exact ih h
    · have he : (a :: t).dropWhile p = a :: t := by
        simp [List.dropWhile, hp]
      rw [he] at h
      simp only [List.head?_cons, Option.some.injEq] at h
      subst h
      simp only [Bool.not_eq_true] at hp
      exact hp

theorem collapseNewlines_nil : collapseNewlines [] = [] := by
  unfold collapseNewlines
  rfl

theorem collapseNewlines_cons_nl (rest : List Char) :
    collapseNewlines ('\n' :: rest) =
      (if 3 ≤ 1 + (rest.takeWhile (fun x => x == '\n')).length
        then ['\n', '\n']
        else List.replicate (1 + (rest.takeWhile (fun x => x == '\n')).length) '\n')
      ++ collapseNewlines (rest.dropWhile (fun x => x == '\n')) := by
  conv_lhs => unfold collapseNewlines
  rw [if_pos rfl]

theorem collapseNewlines_cons (c : Char) (rest : List Char) (hc : ¬ c = '\n') :
    collapseNewlines (c :: rest) = c :: collapseNewlines rest := by
  conv_lhs => unfold collapseNewlines
  rw [if_neg hc]

theorem no_triple_cons_one (Y : List Char)
    (h1 : startsWithL ['\n', '\n'] Y = false)
    (hcY : containsSub ['\n', '\n', '\n'] Y = false) :
    containsSub ['\n', '\n', '\n'] ('\n' :: Y) = false := by
  simp only [containsSub, startsWithL, hcY, Bool.or_false]
  simp [h1]

theorem no_triple_cons_two (Y : List Char)
    (h0 : startsWithL ['\n'] Y = false)
    (h1 : startsWithL ['\n', '\n'] Y = false)
    (hcY : containsSub ['\n', '\n', '\n'] Y = false) :
    containsSub ['\n', '\n', '\n'] ('\n' :: '\n' :: Y) = false := by
  have hrest := no_triple_cons_one Y h1 hcY
  show (startsWithL ['\n', '\n', '\n'] ('\n' :: '\n' :: Y)
      || containsSub ['\n', '\n', '\n'] ('\n' :: Y)) = false
  rw [hrest, Bool.or_false]
  simp [startsWithL, h0]

/-- Output of the newline collapse never contains three consecutive
newlines. -/
theorem collapse_no_triple (t : List Char) :
    containsSub ['\n', '\n', '\n'] (collapseNewlines t) = false := by
  match t with
  | [] =>
    rw [collapseNewlines_nil]
    rfl
  | c :: rest =>
    by_cases hc : c = '\n'
    · subst hc
      have ih := collapse_no_triple (rest.dropWhile (fun x => x == '\n'))
      have hY : ∀ d, (collapseNewlines
          (rest.dropWhile (fun x => x == '\n'))).head? = some d →
          ('\n' == d) = false := by
        intro d hd
        cases hr2 : rest.dropWhile (fun x => x == '\n') with
        | nil =>
          rw [hr2, collapseNewlines_nil] at hd
          simp at hd
        | cons a t2 =>
          have ha : (a == '\n') = false := by
            refine dropWhile_head_false (fun x => x == '\n') rest a ?_
            rw [hr2]
            rfl
          have hane : ¬ a = '\n' := by simpa using ha
          rw [hr2, collapseNewlines_cons a t2 hane] at hd
          simp only [List.head?_cons, Option.some.injEq] at hd
          subst hd
          simpa using fun h => hane h.symm
      have h0 : startsWithL ['\n']
          (collapseNewlines (rest.dropWhile (fun x => x == '\n'))) = false := by
        cases hcl : collapseNewlines (rest.dropWhile (fun x => x == '\n')) with
        | nil => rfl
        | cons d t2 =>
          have := hY d (by rw [hcl]; rfl)
          simp [startsWithL, this]
      have h1 : startsWithL ['\n', '\n']
          (collapseNewlines (rest.dropWhile (fun x => x == '\n'))) = false := by
        cases hcl : collapseNewlines (rest.dropWhile (fun x => x == '\n')) with
        | nil => rfl
        | cons d t2 =>
          have := hY d (by rw [hcl]; rfl)
          simp [startsWithL, this]
      rw [collapseNewlines_cons_nl rest]
      by_cases h3 : 3 ≤ 1 + (rest.takeWhile (fun x => x == '\n')).length
      · rw [if_pos h3]
        exact no_triple_cons_two _ h0 h1 ih
      · rw [if_neg h3]
        have hrun : 1 + (rest.takeWhile (fun x => x == '\n')).length = 1 ∨
            1 + (rest.takeWhile (fun x => x == '\n')).length = 2 := by omega
        rcases hrun with hr | hr
        · rw [hr]
          show containsSub ['\n', '\n', '\n']
            ('\n' :: collapseNewlines (rest.dropWhile (fun x => x == '\n'))) = false
          exact no_triple_cons_one _ h1 ih
        · rw [hr]
          show containsSub ['\n', '\n', '\n']
            ('\n' :: '\n' ::
              collapseNewlines (rest.dropWhile (fun x => x == '\n'))) = false
          exact no_triple_cons_two _ h0 h1 ih
    · rw [collapseNewlines_cons c rest hc]
      have ih := collapse_no_triple rest
      have hcne : ('\n' == c) = false := by
        simpa using fun h => hc h.symm
      show (startsWithL ['\n', '\n', '\n'] (c :: collapseNewlines rest)
          || containsSub ['\n', '\n', '\n'] (collapseNewlines rest)) = false
      rw [ih, Bool.or_false]
      simp [startsWithL, hcne]
termination_by t.length
decreasing_by
  · have := dropWhile_length_le (fun x => x == '\n') rest
    simp only [List.length_cons]
    omega
  · simp

/-! ### Helpers for the summarizer claims -/

theorem claude_call_api_first_ok (llm : Nat → String → Except String String)
    (m r : String) (mr : Nat) (h1 : 1 ≤ mr) (hllm : llm 0 m = Except.ok r) :
    claude_call_api llm m 0 mr = Except.ok r := by
  cases mr with
  | zero => omega
  | succ a =>
    unfold claude_call_api
    rw [hllm]

theorem save_fold_questions (qs : List String) (db : DB) (sid : String) :
    ∃ suffix,
      (qs.foldl (fun acc q => (save_question acc sid q).1) db).questions
        = db.questions ++ suffix ∧
      suffix.map (fun row => (row.session_id, row.question, row.status))
        = qs.map (fun q => (sid, q, QStatus.pending)) := by
  induction qs generalizing db with
  | nil => exact ⟨[], by simp, by simp⟩
  | cons q qs ih =>
    obtain ⟨suffix, h1, h2⟩ := ih ((save_question db sid q).1)
    refine ⟨({ id := db.next_id, session_id := sid, question := q } :
      QuestionRow) :: suffix, ?_, ?_⟩
    · simp only [List.foldl_cons]
      rw [h1]
      show (db.questions ++
        [{ id := db.next_id, session_id := sid, question := q }]) ++ suffix = _
      simp
    · simp [h2]

theorem save_questions_ok (sv : Bool) (hsv : sv = false) (db : DB)
    (sid : String) (qs : List String) :
    save_questions sv (some db) sid qs = Except.ok
      (some (qs.foldl (fun acc q => (save_question acc sid q).1) db)) := by
  unfold save_questions
  dsimp only
  by_cases hq : qs.isEmpty = true
  · rw [if_pos hq]
    rw [List.isEmpty_iff] at hq
    subst hq
    rfl
  · rw [if_neg hq, if_neg (by rw [hsv]; exact Bool.false_ne_true)]

theorem build_user_answers_block_ok (f : Bool) (hf : f = false) (d : DB)
    (sid : String) :
    ∃ blk, build_user_answers_block f (some d) sid = Except.ok (blk,
      some (if (get_answered_unprocessed_questions d sid).isEmpty
        then d
        else mark_questions_processed d
          ((get_answered_unprocessed_questions d sid).map QuestionRow.id))) := by
  unfold build_user_answers_block
  dsimp only
  rw [if_neg (by rw [hf]; exact Bool.false_ne_true)]
  by_cases ha : (get_answered_unprocessed_questions d sid).isEmpty = true
  · rw [if_pos ha, if_pos ha]
    exact ⟨"", rfl⟩
  · rw [if_neg ha, if_neg ha]
    exact ⟨_, rfl⟩

/-- C2 (amended): an incremental pass whose LLM call succeeds with
response `r` scans `r` (after stripping) with the pattern
`\[PREGUNTA:\s*(.+?)\]` — the Spanish marker, not the `[QUESTION: ...]`
of the claim — persists each captured question with status `pending`,
removes the matched markers, collapses runs of three or more newlines
to exactly two (so the installed summary never contains three
consecutive newlines), installs the cleaned text as the session
summary, and publishes one incremental SummaryUpdate carrying it. -/
theorem claim_c2_amended_pregunta_extraction (env : SummarizerEnv) (d : DB)
    (st : SummarizerState) (now : ℚ) (r : String)
    (hp : st.pending.isEmpty = false)
    (hf : env.dbFetchFails = false)
    (hsv : env.dbSaveFails = false)
    (hmr : 1 ≤ env.maxRetries)
    (hllm : ∀ i m, env.llm i m = Except.ok r) :
    (update_summary env (some d) st now).1 = Except.ok () ∧
    (update_summary env (some d) st now).2.1.session_summary
      = (extract_questions_s (pyStripS r)).1 ∧
    containsSub ['\n', '\n', '\n']
      (update_summary env (some d) st now).2.1.session_summary.data = false ∧
    (∃ dbOut suffix,
      (update_summary env (some d) st now).2.2.1 = some dbOut ∧
      dbOut.questions =
        (if (get_answered_unprocessed_questions d st.session_id).isEmpty
          then d
          else mark_questions_processed d
            ((get_answered_unprocessed_questions d st.session_id).map
              QuestionRow.id)).questions ++ suffix ∧
      suffix.map (fun row => (row.session_id, row.question, row.status))
        = (extract_questions_s (pyStripS r)).2.map
            (fun q => (st.session_id, q, QStatus.pending))) ∧
    (update_summary env (some d) st now).2.2.2
      = [BusEvent.summaryUpdate st.session_id
          (extract_questions_s (pyStripS r)).1 st.campaign_summary now
          "incremental"] := by
  obtain ⟨blk, hbuild⟩ :=
    build_user_answers_block_ok env.dbFetchFails hf d st.session_id
  have hmain : update_summary env (some d) st now =
      (Except.ok (),
       ⟨st.session_id, (extract_questions_s (pyStripS r)).1,
        st.campaign_summary, [], now⟩,
       some ((extract_questions_s (pyStripS r)).2.foldl
         (fun acc q => (save_question acc st.session_id q).1)
         (if (get_answered_unprocessed_questions d st.session_id).isEmpty
           then d
           else mark_questions_processed d
             ((get_answered_unprocessed_questions d st.session_id).map
               QuestionRow.id))),
       [BusEvent.summaryUpdate st.session_id
         (extract_questions_s (pyStripS r)).1 st.campaign_summary now
         "incremental"]) := by
    unfold update_summary
    rw [if_neg (by rw [hp]; exact Bool.false_ne_true)]
    rw [hbuild]
    dsimp only
    rw [claude_call_api_first_ok env.llm _ r env.maxRetries hmr (hllm 0 _)]
    dsimp only
    rw [save_questions_ok env.dbSaveFails hsv _ st.session_id _]
  refine ⟨by rw [hmain], by rw [hmain], ?_, ?_, by rw [hmain]⟩
  · rw [hmain]
    show containsSub ['\n', '\n', '\n']
      (extract_questions_s (pyStripS r)).1.data = false
    unfold extract_questions_s extract_questions
    exact collapse_no_triple _
  · obtain ⟨suffix, hs1, hs2⟩ :=
      save_fold_questions (extract_questions_s (pyStripS r)).2
        (if (get_answered_unprocessed_questions d st.session_id).isEmpty
          then d
          else mark_questions_processed d
            ((get_answered_unprocessed_questions d st.session_id).map
              QuestionRow.id)) st.session_id
    exact ⟨_, suffix, by rw [hmain], hs1, hs2⟩

/-- Counterexample for C2 as stated: on a response containing a
`[QUESTION: ...]` marker, the code extracts nothing and leaves the text
unchanged, while the same scan with the literal the claim names would
capture the question and remove the marker. -/
theorem claim_c2_counterexample :
    (extract_questions "Hola. [QUESTION: Who leads?] Fin.".data).2 = [] ∧
    (extract_questions "Hola. [QUESTION: Who leads?] Fin.".data).1
      = "Hola. [QUESTION: Who leads?] Fin.".data ∧
    (extract_questions_specMarker "Hola. [QUESTION: Who leads?] Fin.".data).2
      = ["Who leads?".data] := by
  refine ⟨?_, ?_, ?_⟩ <;>
    simp [extract_questions, extract_questions_specMarker, scanMarkers, tryWs,
      findCapture, capTo, startsWithL, markerPREGUNTA, pyStrip, pyIsSpace,
      collapseNewlines]

/-- Environment of the C2 witness: the LLM always answers with a text
containing one `[PREGUNTA: ...]` marker. -/
def envC2 : SummarizerEnv :=
  { llm := fun _ _ => Except.ok "Resumen. [PREGUNTA: ¿Quién?] Fin.",
    maxRetries := 1 }

/-- Summarizer state of the C2 witness: one buffered transcription. -/
def stC2 : SummarizerState :=
  { session_id := "s1",
    pending := [{ speaker_id := "u1", speaker_name := "Aelar",
                  text := "Hola", timestamp := 0 }] }

/-- Witness for C2 on a concrete pass. -/
theorem claim_c2_witness :
    (update_summary envC2 (some {}) stC2 5).1 = Except.ok () ∧
    (update_summary envC2 (some {}) stC2 5).2.1.session_summary
      = (extract_questions_s
          (pyStripS "Resumen. [PREGUNTA: ¿Quién?] Fin.")).1 ∧
    (update_summary envC2 (some {}) stC2 5).2.2.2
      = [BusEvent.summaryUpdate "s1"
          (extract_questions_s
            (pyStripS "Resumen. [PREGUNTA: ¿Quién?] Fin.")).1
          "" 5 "incremental"] := by
  have h := claim_c2_amended_pregunta_extraction envC2 {} stC2 5
    "Resumen. [PREGUNTA: ¿Quién?] Fin." rfl rfl rfl (by decide)
    (fun i m => rfl)
  exact ⟨h.1, h.2.1, h.2.2.2.2⟩

/-- Environment of the C3 failing input: the database fetch of
answered questions raises. -/
def envC3 : SummarizerEnv :=
  { llm := fun _ _ => Except.ok "unused", maxRetries := 1,
    dbFetchFails := true }

/-- Summarizer state of the C3 failing input: one buffered
transcription. -/
def stC3 : SummarizerState :=
  { session_id := "s1",
    pending := [{ speaker_id := "u1", speaker_name := "Aelar",
                  text := "Importante", timestamp := 0 }] }

/-- C3: evaluation of the code at the failing input.  With one pending
transcription and a database whose `get_answered_unprocessed_questions`
raises, the exception propagates out of `_update_summary` — the fetch
happens between the snapshot of pending and the publish but sits
outside the `try` block — the snapshotted entry is not restored
(pending is empty afterwards, strictly fewer than before), and no
SystemStatus error event is published, contrary to the claim. -/
theorem claim_c3_db_failure_loses_pending :
    (update_summary envC3 (some {}) stC3 5).1
      = Except.error "DatabaseError" ∧
    (update_summary envC3 (some {}) stC3 5).2.1.pending = [] ∧
    stC3.pending.length = 1 ∧
    (update_summary envC3 (some {}) stC3 5).2.2.2 = [] :=
  ⟨rfl, rfl, rfl, rfl⟩

theorem claude_call_api_all_fail (llm : Nat → String → Except String String)
    (hfail : ∀ i m, ∃ e, llm i m = Except.error e) (m : String) :
    ∀ (a i : Nat), ∃ e, claude_call_api llm m i a = Except.error e := by
  intro a
  induction a with
  | zero =>
    intro i
    exact ⟨_, rfl⟩
  | succ k ih =>
    intro i
    obtain ⟨e, he⟩ := hfail i m
    unfold claude_call_api
    rw [he]
    dsimp only
    by_cases hk : k = 0
    · subst hk
      exact ⟨"Claude API failed: " ++ e, by simp⟩
    · rw [if_neg hk]
      exact ih (i + 1)

/-- C10: if the LLM call inside `finalize_session` fails on every
attempt, the raised exception propagates to the caller, no
SummaryUpdate is published, and the pending buffer — cleared before the
call — is not restored: the snapshotted transcriptions are lost while
the session and campaign summaries stay unchanged. -/
theorem claim_c10_finalize_failure_propagates (env : SummarizerEnv)
    (st : SummarizerState) (now : ℚ)
    (hfail : ∀ i m, ∃ e, env.llm i m = Except.error e) :
    ∃ e, finalize_session env st now =
      (Except.error e, ⟨st.session_id, st.session_summary,
        st.campaign_summary, [], st.last_update_time⟩, []) := by
  obtain ⟨e, he⟩ := claude_call_api_all_fail env.llm hfail
    (FINALIZE_USER_fmt
      (if st.session_summary = "" then "(sin resumen todavía)"
       else st.session_summary)
      (if st.pending.isEmpty then "(ninguna)"
       else format_transcriptions st.pending))
    env.maxRetries 0
  refine ⟨e, ?_⟩
  unfold finalize_session
  dsimp only
  rw [he]

/-- Environment of the C10 witness: the LLM always fails. -/
def envC10 : SummarizerEnv :=
  { llm := fun _ _ => Except.error "API down", maxRetries := 3 }

/-- Summarizer state of the C10 witness. -/
def stC10 : SummarizerState :=
  { session_id := "s1", session_summary := "resumen",
    campaign_summary := "camp",
    pending := [{ speaker_id := "u1", speaker_name := "Aelar",
                  text := "perdido", timestamp := 0 }],
    last_update_time := 2 }

/-- Witness for C10: the concrete failed finalize propagates the
wrapped error, clears pending without restoring it, and publishes
nothing. -/
theorem claim_c10_witness :
    finalize_session envC10 stC10 7 =
      (Except.error "Claude API failed: API down",
       ⟨"s1", "resumen", "camp", [], 2⟩, []) := by
  obtain ⟨e, he⟩ := claim_c10_finalize_failure_propagates envC10 stC10 7
    (fun i m => ⟨"API down", rfl⟩)
  have e0 : finalize_session envC10 stC10 7 =
      (Except.error "Claude API failed: API down",
       ⟨"s1", "resumen", "camp", [], 2⟩, []) := rfl
  exact e0

/-- C4 (amended): with a successful finalize LLM call returning `r`,
the response is split on `---CAMPAIGN_SUMMARY---` when both markers are
present: the left part, with every `---SESSION_SUMMARY---` removed and
whitespace-stripped, becomes the session summary and the return value;
the stripped right part is assigned to `campaign_summary` only when it
is non-empty, and `campaign_summary` is left unchanged when it strips
to empty.  If either marker is absent the full response becomes the
session summary and `campaign_summary` is unchanged.  Exactly one
SummaryUpdate with `update_type = final` is published. -/
theorem claim_c4_amended_finalize_split (env : SummarizerEnv)
    (st : SummarizerState) (now : ℚ) (r : String)
    (hmr : 1 ≤ env.maxRetries)
    (hllm : ∀ m, env.llm 0 m = Except.ok r) :
    finalize_session env st now =
      (Except.ok
        (if containsSub "---SESSION_SUMMARY---".data r.data &&
            containsSub "---CAMPAIGN_SUMMARY---".data r.data
         then String.mk (pyStrip (pyReplace "---SESSION_SUMMARY---".data []
           ((pySplitOn "---CAMPAIGN_SUMMARY---".data r.data).getD 0 [])))
         else r),
       ⟨st.session_id,
        (if containsSub "---SESSION_SUMMARY---".data r.data &&
            containsSub "---CAMPAIGN_SUMMARY---".data r.data
         then String.mk (pyStrip (pyReplace "---SESSION_SUMMARY---".data []
           ((pySplitOn "---CAMPAIGN_SUMMARY---".data r.data).getD 0 [])))
         else r),
        (if (if containsSub "---SESSION_SUMMARY---".data r.data &&
              containsSub "---CAMPAIGN_SUMMARY---".data r.data
            then String.mk (pyStrip
              ((pySplitOn "---CAMPAIGN_SUMMARY---".data r.data).getD 1 []))
            else "") ≠ ""
         then (if containsSub "---SESSION_SUMMARY---".data r.data &&
              containsSub "---CAMPAIGN_SUMMARY---".data r.data
            then String.mk (pyStrip
              ((pySplitOn "---CAMPAIGN_SUMMARY---".data r.data).getD 1 []))
            else "")
         else st.campaign_summary),
        [], st.last_update_time⟩,
       [BusEvent.summaryUpdate st.session_id
        (if containsSub "---SESSION_SUMMARY---".data r.data &&
            containsSub "---CAMPAIGN_SUMMARY---".data r.data
         then String.mk (pyStrip (pyReplace "---SESSION_SUMMARY---".data []
           ((pySplitOn "---CAMPAIGN_SUMMARY---".data r.data).getD 0 [])))
         else r)
        (if (if containsSub "---SESSION_SUMMARY---".data r.data &&
              containsSub "---CAMPAIGN_SUMMARY---".data r.data
            then String.mk (pyStrip
              ((pySplitOn "---CAMPAIGN_SUMMARY---".data r.data).getD 1 []))
            else "") ≠ ""
         then (if containsSub "---SESSION_SUMMARY---".data r.data &&
              containsSub "---CAMPAIGN_SUMMARY---".data r.data
            then String.mk (pyStrip
              ((pySplitOn "---CAMPAIGN_SUMMARY---".data r.data).getD 1 []))
            else "")
         else st.campaign_summary)
        now "final"]) := by
  unfold finalize_session
  dsimp only
  rw [claude_call_api_first_ok env.llm _ r env.maxRetries hmr (hllm _)]
  dsimp only
  by_cases hb : (containsSub "---SESSION_SUMMARY---".data r.data &&
      containsSub "---CAMPAIGN_SUMMARY---".data r.data) = true
  · rw [if_pos hb]
    simp only [hb, if_true]
  · rw [if_neg hb]
    simp only [hb]
    rw [if_neg (by simpa using hb)]
    by_cases hr0 : r = ""
    · subst hr0
      rfl
    · rw [if_neg ?_]
      · rfl
      · simpa using hr0

/-- Environment of the C4 counterexample: both markers present but the
campaign part holds only whitespace. -/
def envC4 : SummarizerEnv :=
  { llm := fun _ _ => Except.ok
      "---SESSION_SUMMARY---\nX\n---CAMPAIGN_SUMMARY---\n",
    maxRetries := 1 }

/-- Summarizer state of the C4 counterexample. -/
def stC4 : SummarizerState := { session_id := "s1", campaign_summary := "old" }

/-- Counterexample for C4 as stated: both markers are present, the
right part of the split strips to the empty string, and the code
leaves `campaign_summary` at its previous value `"old"` instead of
assigning the right part. -/
theorem claim_c4_counterexample :
    (finalize_session envC4 stC4 9).2.1.campaign_summary = "old" ∧
    pyStrip ((pySplitOn "---CAMPAIGN_SUMMARY---".data
      "---SESSION_SUMMARY---\nX\n---CAMPAIGN_SUMMARY---\n".data).getD 1 [])
      = [] ∧
    "old" ≠ "" := by
  have hsplit : pySplitOn "---CAMPAIGN_SUMMARY---".data
      "---SESSION_SUMMARY---\nX\n---CAMPAIGN_SUMMARY---\n".data
      = ["---SESSION_SUMMARY---\nX\n".data, "\n".data] := by
    simp [pySplitOn, splitGo, startsWithL]
  refine ⟨?_, by rw [hsplit]; decide, by decide⟩
  have hcon : (containsSub "---SESSION_SUMMARY---".data
      "---SESSION_SUMMARY---\nX\n---CAMPAIGN_SUMMARY---\n".data &&
      containsSub "---CAMPAIGN_SUMMARY---".data
      "---SESSION_SUMMARY---\nX\n---CAMPAIGN_SUMMARY---\n".data) = true := by
    decide
  simp [finalize_session, claude_call_api, envC4, stC4, hcon, hsplit,
    FINALIZE_USER_fmt, format_transcriptions, pyStrip, pyIsSpace]

/-- Environment of the C4 witness: the scenario-6 response of the
specification. -/
def envC4w : SummarizerEnv :=
  { llm := fun _ _ => Except.ok
      "---SESSION_SUMMARY---\nEnd of session.\n---CAMPAIGN_SUMMARY---\nCampaign marches on.",
    maxRetries := 1 }

/-- Summarizer state of the C4 witness. -/
def stC4w : SummarizerState := { session_id := "s1", campaign_summary := "old" }

/-- Witness for C4: the returned value is the stored session summary
and exactly one final SummaryUpdate is published. -/
theorem claim_c4_witness :
    (finalize_session envC4w stC4w 9).1
      = Except.ok ((finalize_session envC4w stC4w 9).2.1.session_summary) ∧
    (finalize_session envC4w stC4w 9).2.2
      = [BusEvent.summaryUpdate "s1"
          ((finalize_session envC4w stC4w 9).2.1.session_summary)
          ((finalize_session envC4w stC4w 9).2.1.campaign_summary)
          9 "final"] := by
  have h := claim_c4_amended_finalize_split envC4w stC4w 9 _ (by decide)
    (fun m => rfl)
  constructor
  · rw [h]
  · rw [h]
    rfl

end RpgScribe